import Mathlib

/-! # crud-generator: validators and mask engine

A shallow embedding of `validators/*.go` and `models/schema.go`.

Go strings are embedded as Lean `String`s and walked rune by rune through
`String.data`. Wherever the source indexes or slices a string by bytes
(`cpf[9]`, `cpf[:9]`, `len(cpf)`), the string is an output of `justDigits`,
so every rune is one ASCII byte and byte positions are rune positions.

Functions of the Go standard library whose behaviour is not repository code
(`regexp.MatchString`, `strconv.ParseFloat`, the Unicode tables beyond Latin-1)
are the fields of `Lib`; the theorems hold for every `Lib`.
-/

set_option autoImplicit false

namespace CrudGenerator

/-! ## Standard-library boundary -/

/-- The part of the Go standard library the validators call and this development does not
fix: `MatchString p v` is the boolean of `regexp.MatchString(p, v)` (an invalid pattern gives
`false`, the error being discarded by the callers), `ParseFloat v` is `strconv.ParseFloat(v, 64)`
with the float64 given by its IEEE-754 bit pattern (`none` on error), and `DigitTable`,
`LetterTable` are `unicode.Digit` and `unicode.Letter` on the runes above Latin-1. -/
structure Lib where
  MatchString : String → String → Bool
  ParseFloat : String → Option Nat
  DigitTable : Char → Bool
  LetterTable : Char → Bool

/-- Bit pattern of the float64 equal to the natural number `n`, exact for `n < 2^53`. -/
def float64BitsOfNat (n : Nat) : Nat :=
  if n = 0 then 0
  else
    let e := Nat.log2 n
    (1023 + e) * 2 ^ 52 + (n - 2 ^ e) * 2 ^ (52 - e)

/-- A concrete library used to evaluate the definitions on examples. Its matcher is
`regexp.MatchString` on patterns without metacharacters (the pattern occurs in the value),
its float parser is `strconv.ParseFloat` on unsigned decimal integers below `2^53`, and its
tables hold no rune; the examples stay inside these fragments. -/
def sampleLib : Lib where
  MatchString := fun p v => v.data.tails.any (fun t => p.data.isPrefixOf t)
  ParseFloat := fun v =>
    if v.data ≠ [] ∧ v.data.all (fun r => decide ('0' ≤ r) && decide (r ≤ '9')) = true
        ∧ v.data.foldl (fun n r => n * 10 + (r.toNat - 48)) 0 < 2 ^ 53 then
      some (float64BitsOfNat (v.data.foldl (fun n r => n * 10 + (r.toNat - 48)) 0))
    else none
  DigitTable := fun _ => false
  LetterTable := fun _ => false

/-! ## models/schema.go -/

structure RegexRule where
  Pattern : String
  Message : String
  deriving DecidableEq, Repr

structure Validation where
  Type_ : String
  RegexRules : List RegexRule
  deriving DecidableEq, Repr

structure Field where
  Name : String
  Type_ : String
  PrimaryKey : Bool
  Required : Bool
  Validation : Validation
  Mask : String
  deriving DecidableEq, Repr

structure Schema where
  TableName : String
  Fields : List Field
  deriving DecidableEq, Repr

/-! ## Go maps and dynamic values -/

/-- A Go `map[string]β`: an association list with at most one entry per key when built with
`GoMap.set` from the empty map. -/
abbrev GoMap (β : Type) := List (String × β)

/-- Lookup `m[k]` with the comma-ok result as an option. -/
def GoMap.get {β : Type} (m : GoMap β) (k : String) : Option β :=
  match m with
  | [] => none
  | (k', v) :: t => if k' = k then some v else GoMap.get t k

/-- Assignment `m[k] = v`: overwrite the entry of `k`, or add one. -/
def GoMap.set {β : Type} (m : GoMap β) (k : String) (v : β) : GoMap β :=
  match m with
  | [] => [(k, v)]
  | (k', v') :: t => if k' = k then (k, v) :: t else (k', v') :: GoMap.set t k v

/-- The values an `interface{}` holds in clean data and in records: `nil`, an `int`, a
`float64` (bit pattern), a `time.Time` at midnight UTC (calendar date), or a `string`. -/
inductive Value where
  | null
  | int (n : Int)
  | float (bits : Nat)
  | date (year month day : Nat)
  | str (s : String)
  deriving DecidableEq, Repr

/-- Go `url.Values`, a `map[string][]string`. -/
abbrev Values := GoMap (List String)

/-- Method `url.Values.Get`: the first value of the key, or the empty string. -/
def Values.Get (form : Values) (key : String) : String :=
  match GoMap.get form key with
  | some (v :: _) => v
  | _ => ""

/-! ## validators/cpf.go, validators/cnpj.go -/

/-- The test `r >= '0' && r <= '9'`. -/
def isAsciiDigit (r : Char) : Bool := decide ('0' ≤ r) && decide (r ≤ '9')

/-- Helper `justDigits` of validator.go: keep the ASCII digits. -/
def justDigits (s : String) : String := String.mk (s.data.filter isAsciiDigit)

/-- Byte `s[i]` of a string of one-byte runes. -/
def byteAt (s : String) (i : Nat) : Nat := (s.data.getD i (Char.ofNat 0)).toNat

/-- Loop of `allSameDigits` over the bytes `s[1], s[2], ...`: `false` at the first one
different from `s0 = s[0]`. -/
def allSameDigitsLoop (s0 : Nat) : List Char → Bool
  | [] => true
  | c :: rest => if c.toNat != s0 then false else allSameDigitsLoop s0 rest

def allSameDigits (s : String) : Bool := allSameDigitsLoop (byteAt s 0) (s.data.drop 1)

/-- Loop of `calculateDigit`: `sum += (int(r) - '0') * weight; weight--`. -/
def calculateDigitSum : List Char → Int → Int → Int
  | [], _, sum => sum
  | r :: rs, weight, sum =>
    calculateDigitSum rs (weight - 1) (sum + ((r.toNat : Int) - 48) * weight)

/-- The tail shared by `calculateDigit` and `calculateCNPJDigit`: `rem := sum % 11` (Go
remainder, truncated), `'0'` when `rem < 2`, else `uint8(11-rem) + '0'` as a byte. -/
def digitOfSum (sum : Int) : Nat :=
  let rem := Int.tmod sum 11
  if rem < 2 then 48 else (((11 - rem) % 256).toNat + 48) % 256

def calculateDigit (doc : String) (weight : Int) : Nat :=
  digitOfSum (calculateDigitSum doc.data weight 0)

def IsValidCPF (cpf : String) (required : Bool) : Bool :=
  if !required then true
  else
    let cpf := justDigits cpf
    if cpf.length != 11 then false
    else if allSameDigits cpf then false
    else
      let d1 := calculateDigit (String.mk (cpf.data.take 9)) 10
      let d2 := calculateDigit (String.mk (cpf.data.take 10)) 11
      byteAt cpf 9 == d1 && byteAt cpf 10 == d2

/-- Loop of `calculateCNPJDigit`: `sum += (int(r) - '0') * weights[i]`; `none` stands for the
index-out-of-range panic when the document is longer than the weight table. -/
def calculateCNPJDigitSum : List Char → List Int → Int → Option Int
  | [], _, sum => some sum
  | _ :: _, [], _ => none
  | r :: rs, w :: ws, sum => calculateCNPJDigitSum rs ws (sum + ((r.toNat : Int) - 48) * w)

def calculateCNPJDigit (doc : String) (weights : List Int) : Option Nat :=
  (calculateCNPJDigitSum doc.data weights 0).map digitOfSum

def IsValidCNPJ (cnpj : String) (required : Bool) : Bool :=
  if !required then true
  else
    let cnpj := justDigits cnpj
    if cnpj.length != 14 then false
    else if allSameDigits cnpj then false
    else
      let weights1 : List Int := [5, 4, 3, 2, 9, 8, 7, 6, 5, 4, 3, 2]
      let weights2 : List Int := [6, 5, 4, 3, 2, 9, 8, 7, 6, 5, 4, 3, 2]
      match calculateCNPJDigit (String.mk (cnpj.data.take 12)) weights1,
            calculateCNPJDigit (String.mk (cnpj.data.take 13)) weights2 with
      | some d1, some d2 => byteAt cnpj 12 == d1 && byteAt cnpj 13 == d2
      | _, _ => false -- not reached: the slices have 12 and 13 bytes, as the tables

/-! ## validators/email.go, cep.go, phone.go

The three patterns are the source's raw string literals; `MustCompile(p).MatchString(v)` is
`regexp.MatchString(p, v)`. -/

def emailRegex : String := "^[a-zA-Z0-9._%+-]+@[a-zA-Z0-9.-]+\\.[a-zA-Z]\x7b2,\x7d$"

def cepRegex : String := "^\\d\x7b8\x7d$"

def phoneRegex : String := "^\\d\x7b10,11\x7d$"

def IsValidEmail (lib : Lib) (email : String) (required : Bool) : Bool :=
  if !required then true else lib.MatchString emailRegex email

def IsValidCEP (lib : Lib) (cep : String) (required : Bool) : Bool :=
  if !required then true else lib.MatchString cepRegex cep

def IsValidPhone (lib : Lib) (phone : String) (required : Bool) : Bool :=
  if !required then true else lib.MatchString phoneRegex phone

/-! ## validators/validator.go: the mask engine -/

def ANY_MASK : Char := '*'

def CHARACTER_MASK : Char := '#'

def DIGIT_MASK : Char := '9'

/-- Go `unicode.IsDigit`: the ASCII digits up to `MaxLatin1`, the table `unicode.Digit` above. -/
def unicodeIsDigit (lib : Lib) (r : Char) : Bool :=
  if r.toNat ≤ 0xFF then decide ('0' ≤ r) && decide (r ≤ '9') else lib.DigitTable r

/-- Go `unicode.IsLetter`: the Latin-1 letters up to `MaxLatin1` (the `pLmask` entries of
`unicode.properties`), the table `unicode.Letter` above. -/
def unicodeIsLetter (lib : Lib) (r : Char) : Bool :=
  if r.toNat ≤ 0xFF then
    let n := r.toNat
    decide (0x41 ≤ n ∧ n ≤ 0x5A) || decide (0x61 ≤ n ∧ n ≤ 0x7A) || decide (n = 0xAA)
      || decide (n = 0xB5) || decide (n = 0xBA) || decide (0xC0 ≤ n ∧ n ≤ 0xD6)
      || decide (0xD8 ≤ n ∧ n ≤ 0xF6) || decide (0xF8 ≤ n ∧ n ≤ 0xFF)
  else lib.LetterTable r

def CleanValueByMask (field : Field) (value : String) : String :=
  if field.Mask = "" then value
  else
    let charsToRemove : List Char := ['.', '-', '(', ')', '/', ' ', '_']
    charsToRemove.foldl
      (fun cleanedValue char => String.mk (cleanedValue.data.filter (fun r => r != char))) value

def isValidChar (lib : Lib) (inputChar maskChar : Char) : Bool :=
  if maskChar = ANY_MASK then true
  else if maskChar = DIGIT_MASK then unicodeIsDigit lib inputChar
  else if maskChar = CHARACTER_MASK then unicodeIsLetter lib inputChar
  else false

structure MaskResult where
  Valid : Bool
  Character : Char
  Consumed : Bool
  deriving DecidableEq, Repr

def processMaskCharacter (lib : Lib) (maskChar inputChar : Char) : MaskResult :=
  let placeholders : List Char := [ANY_MASK, DIGIT_MASK, CHARACTER_MASK]
  if placeholders.any (fun placeholder => maskChar == placeholder) then
    { Valid := isValidChar lib inputChar maskChar, Character := inputChar, Consumed := true }
  else
    { Valid := true, Character := maskChar, Consumed := inputChar == maskChar }

/-- The loop of `FormatValueByMask`, on the remaining mask runes, the remaining input runes
and the result so far; every iteration advances the mask index. -/
def formatLoop (lib : Lib) : List Char → List Char → List Char → List Char
  | [], _, result => result
  | _ :: _, [], result => result
  | m :: maskRunes, i :: inputRunes, result =>
    let maskResult := processMaskCharacter lib m i
    if !maskResult.Valid then result
    else
      formatLoop lib maskRunes (if maskResult.Consumed then inputRunes else i :: inputRunes)
        (result ++ [maskResult.Character])

def FormatValueByMask (lib : Lib) (mask value : String) : String :=
  if mask = "" then value else String.mk (formatLoop lib mask.data value.data [])

/-- A record `map[string]interface{}` as the repository returns it. -/
abbrev Record := GoMap Value

def FormatSingleDataBySchema (lib : Lib) (schema : Schema) (data : Record) : Record :=
  schema.Fields.foldl
    (fun data field =>
      if field.Mask ≠ "" then
        match GoMap.get data field.Name with
        | some (Value.str rawValue) =>
          GoMap.set data field.Name (Value.str (FormatValueByMask lib field.Mask rawValue))
        | _ => data
      else data)
    data

/-- The source mutates every record of the slice in place; the embedding returns the records
after the two nested loops. -/
def FormatDataBySchema (lib : Lib) (schema : Schema) (data : List Record) : List Record :=
  data.map fun record =>
    schema.Fields.foldl
      (fun record field =>
        if field.Mask ≠ "" then
          match GoMap.get record field.Name with
          | some (Value.str rawValue) =>
            GoMap.set record field.Name (Value.str (FormatValueByMask lib field.Mask rawValue))
          | _ => record
        else record)
      record

/-! ## validators/validator.go: the validation pipeline -/

/-- Go `strconv.Atoi` on a 64-bit platform: an optional sign, then one or more ASCII digits,
the value within the range of `int`; `none` for the syntax and range errors. -/
def Atoi (s : String) : Option Int :=
  let neg : Bool := s.data.head? = some '-'
  let body : List Char :=
    if s.data.head? = some '-' ∨ s.data.head? = some '+' then s.data.drop 1 else s.data
  if body = [] ∨ body.all isAsciiDigit = false then none
  else
    let un : Nat := body.foldl (fun n r => n * 10 + (r.toNat - 48)) 0
    let n : Int := if neg then -(un : Int) else (un : Int)
    if n < -(2 ^ 63 : Int) ∨ (2 ^ 63 : Int) ≤ n then none else some n

/-- Number of days of a month, the `daysIn` of package `time`. -/
def daysIn (month year : Nat) : Nat :=
  if month = 2 then
    if year % 4 = 0 ∧ (year % 100 ≠ 0 ∨ year % 400 = 0) then 29 else 28
  else if month = 4 ∨ month = 6 ∨ month = 9 ∨ month = 11 then 30
  else 31

/-- The number written by a list of ASCII digits. -/
def digitsValue (ds : List Char) : Nat := ds.foldl (fun n r => n * 10 + (r.toNat - 48)) 0

/-- The range checks of `time.Parse` once year, month and day are read. -/
def checkDate (year month day : Nat) : Option Value :=
  if month < 1 ∨ 12 < month then none
  else if day < 1 ∨ daysIn month year < day then none
  else some (Value.date year month day)

/-- Go `time.Parse` for the two layouts the pipeline uses: `"2006-01-02"` is four digits,
`-`, two digits, `-`, two digits; `"02/01/2006"` is two digits, `/`, two digits, `/`, four
digits; nothing may follow, the month is 1..12 and the day exists in that month. Any other
layout is outside this model (`none`). -/
def timeParse (layout value : String) : Option Value :=
  if layout = "2006-01-02" then
    match value.data with
    | [y1, y2, y3, y4, s1, m1, m2, s2, d1, d2] =>
      if [y1, y2, y3, y4, m1, m2, d1, d2].all isAsciiDigit ∧ s1 = '-' ∧ s2 = '-' then
        checkDate (digitsValue [y1, y2, y3, y4]) (digitsValue [m1, m2]) (digitsValue [d1, d2])
      else none
    | _ => none
  else if layout = "02/01/2006" then
    match value.data with
    | [d1, d2, s1, m1, m2, s2, y1, y2, y3, y4] =>
      if [y1, y2, y3, y4, m1, m2, d1, d2].all isAsciiDigit ∧ s1 = '/' ∧ s2 = '/' then
        checkDate (digitsValue [y1, y2, y3, y4]) (digitsValue [m1, m2]) (digitsValue [d1, d2])
      else none
    | _ => none
  else none

/-- The `switch field.Validation.Type` of `ValidateData`: the error message of the selected
format validator when it rejects the value, `none` when it accepts or no case applies. -/
def standardValidation (lib : Lib) (field : Field) (value : String) : Option String :=
  if field.Validation.Type_ = "cpf" then
    if !IsValidCPF value field.Required then some "CPF inválido" else none
  else if field.Validation.Type_ = "cnpj" then
    if !IsValidCNPJ value field.Required then some "CNPJ inválido" else none
  else if field.Validation.Type_ = "email" then
    if !IsValidEmail lib value field.Required then some "Email inválido" else none
  else if field.Validation.Type_ = "cep" then
    if !IsValidCEP lib value field.Required then some "CEP inválido" else none
  else if field.Validation.Type_ = "telefone" then
    if !IsValidPhone lib value field.Required then some "Telefone inválido" else none
  else none

/-- The loop over `field.Validation.RegexRules`: a rule that does not match assigns its
message to `errors[field.Name]`; the `continue` after the assignment is the last statement of
the loop body, so the loop goes on with the next rule. -/
def regexLoop (lib : Lib) (name value : String) (rules : List RegexRule)
    (errors : GoMap String) : GoMap String :=
  rules.foldl
    (fun errors rule =>
      if !lib.MatchString rule.Pattern value then GoMap.set errors name rule.Message
      else errors)
    errors

/-- Step 4 of `ValidateData`, the `switch field.Type`. -/
def convertType (lib : Lib) (field : Field) (value : String)
    (st : GoMap Value × GoMap String) : GoMap Value × GoMap String :=
  if field.Type_ = "int" then
    if field.PrimaryKey && value == "" then st
    else
      match Atoi value with
      | none => (st.1, GoMap.set st.2 field.Name "Valor deve ser um número inteiro")
      | some intVal => (GoMap.set st.1 field.Name (Value.int intVal), st.2)
  else if field.Type_ = "date" then
    match timeParse "2006-01-02" value with
    | some dateVal => (GoMap.set st.1 field.Name dateVal, st.2)
    | none =>
      match timeParse "02/01/2006" value with
      | some dateVal => (GoMap.set st.1 field.Name dateVal, st.2)
      | none => (st.1, GoMap.set st.2 field.Name "Data inválida. Use AAAA-MM-DD")
  else if field.Type_ = "float" then
    match lib.ParseFloat value with
    | none => (st.1, GoMap.set st.2 field.Name "Valor deve ser numérico")
    | some floatVal => (GoMap.set st.1 field.Name (Value.float floatVal), st.2)
  else if field.Type_ = "string" ∨ field.Type_ = "text" then
    (GoMap.set st.1 field.Name (Value.str (CleanValueByMask field value)), st.2)
  else (GoMap.set st.1 field.Name (Value.str value), st.2)

/-- One iteration of the loop of `ValidateData` over `schema.Fields`, on the pair
`(cleanData, errors)`. -/
def validateField (lib : Lib) (form : Values) (st : GoMap Value × GoMap String)
    (field : Field) : GoMap Value × GoMap String :=
  let value := Values.Get form field.Name
  if field.Required && value == "" then
    (st.1, GoMap.set st.2 field.Name "Campo obrigatório")
  else if !field.Required && value == "" then
    (GoMap.set st.1 field.Name Value.null, st.2)
  else
    match standardValidation lib field value with
    | some message => (st.1, GoMap.set st.2 field.Name message)
    | none =>
      let errors := regexLoop lib field.Name value field.Validation.RegexRules st.2
      if (GoMap.get errors field.Name).isSome then (st.1, errors)
      else convertType lib field value (st.1, errors)

/-- The pair `(cleanData, errors)` returned by `ValidateData`. -/
def ValidateData (lib : Lib) (form : Values) (schema : Schema) : GoMap Value × GoMap String :=
  schema.Fields.foldl (validateField lib form) ([], [])

/-! ## Specification-side definitions

These follow the wording of the specification, to be compared with the code above. -/

/-- The ASCII digits of a string, in order, as numbers. -/
def docDigits (s : String) : List Nat := (s.data.filter isAsciiDigit).map (fun r => r.toNat - 48)

/-- The check digit of a weighted sum: `0` when the sum modulo 11 is below 2, else 11 minus it. -/
def checkDigit (S : Nat) : Nat := if S % 11 < 2 then 0 else 11 - S % 11

/-- The sum of the digits times their weights, position by position. -/
def weightedSum (digits weights : List Nat) : Nat := (List.zipWith (· * ·) digits weights).sum

/-- The claimed validity condition of a CPF on the digits of the string. -/
def cpfSpec (d : List Nat) : Prop :=
  d.length = 11 ∧ (¬ ∃ a, ∀ x ∈ d, x = a) ∧
    d[9]? = some (checkDigit (weightedSum (d.take 9) [10, 9, 8, 7, 6, 5, 4, 3, 2])) ∧
    d[10]? = some (checkDigit (weightedSum (d.take 10) [11, 10, 9, 8, 7, 6, 5, 4, 3, 2]))

/-- The string obtained from `c` by replacing the rune at position `i` with `x`. -/
def replaceAt (c : String) (i : Nat) (x : Char) : String := String.mk (c.data.set i x)

/-- The claimed validity condition of a CNPJ on the digits of the string. -/
def cnpjSpec (d : List Nat) : Prop :=
  d.length = 14 ∧ (¬ ∃ a, ∀ x ∈ d, x = a) ∧
    d[12]? = some (checkDigit (weightedSum (d.take 12) [5, 4, 3, 2, 9, 8, 7, 6, 5, 4, 3, 2])) ∧
    d[13]? = some (checkDigit (weightedSum (d.take 13) [6, 5, 4, 3, 2, 9, 8, 7, 6, 5, 4, 3, 2]))

/-- The seven characters `CleanValueByMask` removes. -/
def strippedChars : List Char := ['.', '-', '(', ')', '/', ' ', '_']

/-- The three wildcards of the mask language: `9`, `#` and `*`. -/
def isWildcard (m : Char) : Bool := m == '9' || m == '#' || m == '*'

/-- A value is well-formed for a mask when its characters satisfy, in order, the character
classes of the mask's wildcards: there is a wildcard for every character of the value, and the
k-th character is accepted by the k-th wildcard. -/
def wellFormedFor (lib : Lib) (mask v : String) : Bool :=
  decide (v.data.length ≤ (mask.data.filter isWildcard).length) &&
    (v.data.zip (mask.data.filter isWildcard)).all (fun p => isValidChar lib p.1 p.2)

/-! ## Example schema fields -/

/-- The schema field of the example: `age`, an `int`, required. -/
def ageField : Field :=
  { Name := "age", Type_ := "int", PrimaryKey := false, Required := true,
    Validation := { Type_ := "", RegexRules := [] }, Mask := "" }

/-- A required string field with two regex rules. -/
def codeField : Field :=
  { Name := "code", Type_ := "string", PrimaryKey := false, Required := true,
    Validation := { Type_ := "", RegexRules := [⟨"x", "needs x"⟩, ⟨"y", "needs y"⟩] },
    Mask := "" }

/-- A required string field validated as a CPF. -/
def docField : Field :=
  { Name := "doc", Type_ := "string", PrimaryKey := false, Required := true,
    Validation := { Type_ := "cpf", RegexRules := [] }, Mask := "" }

/-- An optional field validated as an email, of type `int`. -/
def optField : Field :=
  { Name := "contact", Type_ := "int", PrimaryKey := false, Required := false,
    Validation := { Type_ := "email", RegexRules := [⟨"x", "needs x"⟩] }, Mask := "" }

/-- An optional `int` primary key, as on the create path. -/
def idField : Field :=
  { Name := "id", Type_ := "int", PrimaryKey := true, Required := false,
    Validation := { Type_ := "", RegexRules := [] }, Mask := "" }

/-- A required `int` primary key. -/
def idFieldRequired : Field :=
  { Name := "id", Type_ := "int", PrimaryKey := true, Required := true,
    Validation := { Type_ := "", RegexRules := [] }, Mask := "" }

/-- A required string field without a mask. -/
def plainField : Field :=
  { Name := "note", Type_ := "string", PrimaryKey := false, Required := true,
    Validation := { Type_ := "", RegexRules := [] }, Mask := "" }

/-- A required string field with the CPF mask. -/
def maskedField : Field :=
  { Name := "cpf", Type_ := "string", PrimaryKey := false, Required := true,
    Validation := { Type_ := "", RegexRules := [] }, Mask := "999.999.999-99" }

/-- A string field whose mask is the single wildcard `*`. -/
def anyMaskField : Field :=
  { Name := "tag", Type_ := "string", PrimaryKey := false, Required := true,
    Validation := { Type_ := "", RegexRules := [] }, Mask := "*" }

/-- A required date field. -/
def birthField : Field :=
  { Name := "birth", Type_ := "date", PrimaryKey := false, Required := true,
    Validation := { Type_ := "", RegexRules := [] }, Mask := "" }

/-! ## Check digits: CPF -/

theorem isAsciiDigit_iff (r : Char) : isAsciiDigit r = true ↔ 48 ≤ r.toNat ∧ r.toNat ≤ 57 := by
  simp only [isAsciiDigit, Bool.and_eq_true, decide_eq_true_eq, Char.le_def]
  rfl

theorem digitOfSum_natCast (S : Nat) : digitOfSum (S : Int) = 48 + checkDigit S := by
  unfold digitOfSum checkDigit
  have h : (S : Int).tmod 11 = ((S % 11 : Nat) : Int) := by
    rw [Int.ofNat_tmod]; rfl
  simp only [h]
  have h11 : S % 11 < 11 := Nat.mod_lt _ (by decide)
  split_ifs with h1 h2 h2
  · rfl
  · omega
  · omega
  · omega

theorem length_eq_eleven {α : Type} (l : List α) (h : l.length = 11) :
    ∃ a0 a1 a2 a3 a4 a5 a6 a7 a8 a9 a10, l = [a0, a1, a2, a3, a4, a5, a6, a7, a8, a9, a10] := by
  rcases l with _ | ⟨a0, _ | ⟨a1, _ | ⟨a2, _ | ⟨a3, _ | ⟨a4, _ | ⟨a5, _ | ⟨a6, _ | ⟨a7, _ | ⟨a8,
    _ | ⟨a9, _ | ⟨a10, _ | ⟨a11, l⟩⟩⟩⟩⟩⟩⟩⟩⟩⟩⟩⟩ <;> simp at h
  exact ⟨a0, a1, a2, a3, a4, a5, a6, a7, a8, a9, a10, rfl⟩

theorem digit_code (r : Char) (h : isAsciiDigit r = true) : ∃ k, k ≤ 9 ∧ r.toNat = 48 + k := by
  rw [isAsciiDigit_iff] at h
  exact ⟨r.toNat - 48, by omega, by omega⟩

theorem filter_digits_self (l : List Char) (h : ∀ r ∈ l, isAsciiDigit r = true) :
    l.filter isAsciiDigit = l := by
  rw [List.filter_eq_self]; exact h

/-- The validator on a list of eleven digit runes, as arithmetic on their codes. -/
theorem cpf_digits_eval (c0 c1 c2 c3 c4 c5 c6 c7 c8 c9 c10 : Char)
    (h : ∀ r ∈ [c0, c1, c2, c3, c4, c5, c6, c7, c8, c9, c10], isAsciiDigit r = true) :
    (IsValidCPF (String.mk [c0, c1, c2, c3, c4, c5, c6, c7, c8, c9, c10]) true = true ↔
      cpfSpec ([c0, c1, c2, c3, c4, c5, c6, c7, c8, c9, c10].map (fun r => r.toNat - 48))) := by
  have hf := filter_digits_self _ h
  simp only [List.mem_cons, List.mem_singleton, forall_eq_or_imp, forall_eq, List.not_mem_nil,
    IsEmpty.forall_iff, implies_true, and_true] at h
  obtain ⟨h0, h1, h2, h3, h4, h5, h6, h7, h8, h9, h10⟩ := h
  obtain ⟨k0, -, e0⟩ := digit_code _ h0
  obtain ⟨k1, -, e1⟩ := digit_code _ h1
  obtain ⟨k2, -, e2⟩ := digit_code _ h2
  obtain ⟨k3, -, e3⟩ := digit_code _ h3
  obtain ⟨k4, -, e4⟩ := digit_code _ h4
  obtain ⟨k5, -, e5⟩ := digit_code _ h5
  obtain ⟨k6, -, e6⟩ := digit_code _ h6
  obtain ⟨k7, -, e7⟩ := digit_code _ h7
  obtain ⟨k8, -, e8⟩ := digit_code _ h8
  obtain ⟨k9, -, e9⟩ := digit_code _ h9
  obtain ⟨k10, -, e10⟩ := digit_code _ h10
  have s1 : calculateDigitSum [c0, c1, c2, c3, c4, c5, c6, c7, c8] 10 0 =
      ((weightedSum [k0, k1, k2, k3, k4, k5, k6, k7, k8] [10, 9, 8, 7, 6, 5, 4, 3, 2] : Nat) : Int) := by
    simp [calculateDigitSum, weightedSum, e0, e1, e2, e3, e4, e5, e6, e7, e8]
    ring
  have s2 : calculateDigitSum [c0, c1, c2, c3, c4, c5, c6, c7, c8, c9] 11 0 =
      ((weightedSum [k0, k1, k2, k3, k4, k5, k6, k7, k8, k9]
        [11, 10, 9, 8, 7, 6, 5, 4, 3, 2] : Nat) : Int) := by
    simp [calculateDigitSum, weightedSum, e0, e1, e2, e3, e4, e5, e6, e7, e8, e9]
    ring
  simp only [IsValidCPF, justDigits, hf, calculateDigit, List.take, s1, s2, digitOfSum_natCast,
    cpfSpec, allSameDigits, byteAt, allSameDigitsLoop]
  simp
  simp only [e0, e1, e2, e3, e4, e5, e6, e7, e8, e9, e10, Nat.add_sub_cancel_left,
    Nat.add_left_cancel_iff, imp_iff_not_or]

theorem IsValidCPF_iff_cpfSpec (s : String) :
    IsValidCPF s true = true ↔ cpfSpec (docDigits s) := by
  by_cases hlen : (s.data.filter isAsciiDigit).length = 11
  · obtain ⟨c0, c1, c2, c3, c4, c5, c6, c7, c8, c9, c10, hl⟩ := length_eq_eleven _ hlen
    have hd : ∀ r ∈ [c0, c1, c2, c3, c4, c5, c6, c7, c8, c9, c10], isAsciiDigit r = true := by
      intro r hr
      rw [← hl] at hr
      exact (List.mem_filter.mp hr).2
    have e := cpf_digits_eval c0 c1 c2 c3 c4 c5 c6 c7 c8 c9 c10 hd
    have e1 : IsValidCPF s true
        = IsValidCPF (String.mk [c0, c1, c2, c3, c4, c5, c6, c7, c8, c9, c10]) true := by
      simp only [IsValidCPF, justDigits, hl, filter_digits_self _ hd]
    rw [e1, e, docDigits, hl]
  · have h1 : IsValidCPF s true = false := by
      simp [IsValidCPF, justDigits, String.length, hlen]
    have h2 : ¬ cpfSpec (docDigits s) := by
      intro h
      apply hlen
      have := h.1
      simpa [docDigits] using this
    simp [h1, h2]

/-- C1: for every string `s`, `IsValidCPF(s, true)` is true exactly when the ASCII digits `d`
of `s` are eleven, are not all identical, `d[9]` is the check digit of `d[0..8]` under the
weights 10, 9, ..., 2 and `d[10]` is the check digit of `d[0..9]` under 11, 10, ..., 2. -/
theorem C1_IsValidCPF_iff_check_digits (s : String) :
    IsValidCPF s true = true ↔
      ((docDigits s).length = 11 ∧ (¬ ∃ a, ∀ x ∈ docDigits s, x = a) ∧
        (docDigits s)[9]? = some (checkDigit
          (weightedSum ((docDigits s).take 9) [10, 9, 8, 7, 6, 5, 4, 3, 2])) ∧
        (docDigits s)[10]? = some (checkDigit
          (weightedSum ((docDigits s).take 10) [11, 10, 9, 8, 7, 6, 5, 4, 3, 2]))) :=
  IsValidCPF_iff_cpfSpec s

/-! ## Single-digit corruption of a CPF -/

theorem checkDigit_eq_iff (S d : Nat) :
    d = checkDigit S ↔ (S % 11 < 2 ∧ d = 0) ∨ (2 ≤ S % 11 ∧ d + S % 11 = 11) := by
  unfold checkDigit; split_ifs <;> omega

theorem checkDigit_collide (S T d : Nat) (h : d = checkDigit S) (h' : d = checkDigit T) :
    ((S : Int) - T) % 11 = 0 ∨ ((S : Int) - T) % 11 = 1 ∨ ((S : Int) - T) % 11 = 10 := by
  rw [checkDigit_eq_iff] at h h'
  omega

/-- A digit change `δ` under consecutive weights `w` and `w + 1` moves at least one of the two
weighted sums to a different check digit, unless `w = 10` and `δ = ±1` or `w = 5` and
`δ = ±2, ±9`. -/
theorem weights_separate (w δ : Int) (hw : 2 ≤ w ∧ w ≤ 10) (hδ : -9 ≤ δ ∧ δ ≤ 9) (h0 : δ ≠ 0)
    (a : (w * δ) % 11 = 0 ∨ (w * δ) % 11 = 1 ∨ (w * δ) % 11 = 10)
    (b : ((w + 1) * δ) % 11 = 0 ∨ ((w + 1) * δ) % 11 = 1 ∨ ((w + 1) * δ) % 11 = 10)
    (e0 : w = 10 → δ ≠ 1 ∧ δ ≠ -1)
    (e5 : w = 5 → δ ≠ 2 ∧ δ ≠ -2 ∧ δ ≠ 9 ∧ δ ≠ -9) : False := by
  obtain ⟨hw1, hw2⟩ := hw
  obtain ⟨hd1, hd2⟩ := hδ
  interval_cases w <;> omega

theorem cpfSpec_eleven (k0 k1 k2 k3 k4 k5 k6 k7 k8 k9 k10 : Nat) :
    cpfSpec [k0, k1, k2, k3, k4, k5, k6, k7, k8, k9, k10] →
      k9 = checkDigit (weightedSum [k0, k1, k2, k3, k4, k5, k6, k7, k8]
        [10, 9, 8, 7, 6, 5, 4, 3, 2]) ∧
      k10 = checkDigit (weightedSum [k0, k1, k2, k3, k4, k5, k6, k7, k8, k9]
        [11, 10, 9, 8, 7, 6, 5, 4, 3, 2]) := by
  intro h
  have h1 := h.2.2.1
  have h2 := h.2.2.2
  simp only [List.take, List.getElem?_cons_succ, List.getElem?_cons_zero, Option.some.injEq]
    at h1 h2
  exact ⟨h1, h2⟩

/-- Single-digit corruption on the digit list: outside the two exceptional positions and
differences, a changed digit breaks the validity condition. -/
theorem cpfSpec_corrupt (d : List Nat) (i x : Nat) (hd : ∀ k ∈ d, k ≤ 9) (hx : x ≤ 9)
    (hv : cpfSpec d) (hi : i < 11) (hne : d[i]? ≠ some x)
    (e0 : i = 0 → ∀ k, d[i]? = some k → x ≠ k + 1 ∧ k ≠ x + 1)
    (e5 : i = 5 → ∀ k, d[i]? = some k → x ≠ k + 2 ∧ k ≠ x + 2 ∧ x ≠ k + 9 ∧ k ≠ x + 9) :
    ¬ cpfSpec (d.set i x) := by
  obtain ⟨k0, k1, k2, k3, k4, k5, k6, k7, k8, k9, k10, rfl⟩ := length_eq_eleven d hv.1
  obtain ⟨h9, h10⟩ := cpfSpec_eleven _ _ _ _ _ _ _ _ _ _ _ hv
  simp only [List.mem_cons, List.mem_singleton, forall_eq_or_imp, forall_eq, List.not_mem_nil,
    IsEmpty.forall_iff, implies_true, and_true] at hd
  intro hv'
  interval_cases i <;>
    simp only [List.set, List.getElem?_cons_succ, List.getElem?_cons_zero, Option.some.injEq,
      ne_eq, forall_eq', one_ne_zero, OfNat.ofNat_ne_zero, IsEmpty.forall_iff, forall_true_left,
      Nat.reduceEqDiff, Nat.succ_ne_self, OfNat.ofNat_ne_one, OfNat.zero_ne_ofNat, reduceCtorEq]
      at hv' hne e0 e5 <;>
    obtain ⟨h9', h10'⟩ := cpfSpec_eleven _ _ _ _ _ _ _ _ _ _ _ hv'
  · have a := checkDigit_collide _ _ _ h9 h9'
    have b := checkDigit_collide _ _ _ h10 h10'
    have ea : ((weightedSum [k0, k1, k2, k3, k4, k5, k6, k7, k8] [10, 9, 8, 7, 6, 5, 4, 3, 2] : Nat) : Int)
        - (weightedSum [x, k1, k2, k3, k4, k5, k6, k7, k8] [10, 9, 8, 7, 6, 5, 4, 3, 2] : Nat) = 10 * ((k0 : Int) - x) := by
      simp only [weightedSum, List.zipWith, List.sum_cons, List.sum_nil]; push_cast; ring
    have eb : ((weightedSum [k0, k1, k2, k3, k4, k5, k6, k7, k8, k9] [11, 10, 9, 8, 7, 6, 5, 4, 3, 2] : Nat) : Int)
        - (weightedSum [x, k1, k2, k3, k4, k5, k6, k7, k8, k9] [11, 10, 9, 8, 7, 6, 5, 4, 3, 2] : Nat) = (10 + 1) * ((k0 : Int) - x) := by
      simp only [weightedSum, List.zipWith, List.sum_cons, List.sum_nil]; push_cast; ring
    rw [ea] at a
    rw [eb] at b
    exact weights_separate 10 ((k0 : Int) - x) (by omega) (by omega) (by omega) a b
      (by omega) (by omega)
  · have a := checkDigit_collide _ _ _ h9 h9'
    have b := checkDigit_collide _ _ _ h10 h10'
    have ea : ((weightedSum [k0, k1, k2, k3, k4, k5, k6, k7, k8] [10, 9, 8, 7, 6, 5, 4, 3, 2] : Nat) : Int)
        - (weightedSum [k0, x, k2, k3, k4, k5, k6, k7, k8] [10, 9, 8, 7, 6, 5, 4, 3, 2] : Nat) = 9 * ((k1 : Int) - x) := by
      simp only [weightedSum, List.zipWith, List.sum_cons, List.sum_nil]; push_cast; ring
    have eb : ((weightedSum [k0, k1, k2, k3, k4, k5, k6, k7, k8, k9] [11, 10, 9, 8, 7, 6, 5, 4, 3, 2] : Nat) : Int)
        - (weightedSum [k0, x, k2, k3, k4, k5, k6, k7, k8, k9] [11, 10, 9, 8, 7, 6, 5, 4, 3, 2] : Nat) = (9 + 1) * ((k1 : Int) - x) := by
      simp only [weightedSum, List.zipWith, List.sum_cons, List.sum_nil]; push_cast; ring
    rw [ea] at a
    rw [eb] at b
    exact weights_separate 9 ((k1 : Int) - x) (by omega) (by omega) (by omega) a b
      (by omega) (by omega)
  · have a := checkDigit_collide _ _ _ h9 h9'
    have b := checkDigit_collide _ _ _ h10 h10'
    have ea : ((weightedSum [k0, k1, k2, k3, k4, k5, k6, k7, k8] [10, 9, 8, 7, 6, 5, 4, 3, 2] : Nat) : Int)
        - (weightedSum [k0, k1, x, k3, k4, k5, k6, k7, k8] [10, 9, 8, 7, 6, 5, 4, 3, 2] : Nat) = 8 * ((k2 : Int) - x) := by
      simp only [weightedSum, List.zipWith, List.sum_cons, List.sum_nil]; push_cast; ring
    have eb : ((weightedSum [k0, k1, k2, k3, k4, k5, k6, k7, k8, k9] [11, 10, 9, 8, 7, 6, 5, 4, 3, 2] : Nat) : Int)
        - (weightedSum [k0, k1, x, k3, k4, k5, k6, k7, k8, k9] [11, 10, 9, 8, 7, 6, 5, 4, 3, 2] : Nat) = (8 + 1) * ((k2 : Int) - x) := by
      simp only [weightedSum, List.zipWith, List.sum_cons, List.sum_nil]; push_cast; ring
    rw [ea] at a
    rw [eb] at b
    exact weights_separate 8 ((k2 : Int) - x) (by omega) (by omega) (by omega) a b
      (by omega) (by omega)
  · have a := checkDigit_collide _ _ _ h9 h9'
    have b := checkDigit_collide _ _ _ h10 h10'
    have ea : ((weightedSum [k0, k1, k2, k3, k4, k5, k6, k7, k8] [10, 9, 8, 7, 6, 5, 4, 3, 2] : Nat) : Int)
        - (weightedSum [k0, k1, k2, x, k4, k5, k6, k7, k8] [10, 9, 8, 7, 6, 5, 4, 3, 2] : Nat) = 7 * ((k3 : Int) - x) := by
      simp only [weightedSum, List.zipWith, List.sum_cons, List.sum_nil]; push_cast; ring
    have eb : ((weightedSum [k0, k1, k2, k3, k4, k5, k6, k7, k8, k9] [11, 10, 9, 8, 7, 6, 5, 4, 3, 2] : Nat) : Int)
        - (weightedSum [k0, k1, k2, x, k4, k5, k6, k7, k8, k9] [11, 10, 9, 8, 7, 6, 5, 4, 3, 2] : Nat) = (7 + 1) * ((k3 : Int) - x) := by
      simp only [weightedSum, List.zipWith, List.sum_cons, List.sum_nil]; push_cast; ring
    rw [ea] at a
    rw [eb] at b
    exact weights_separate 7 ((k3 : Int) - x) (by omega) (by omega) (by omega) a b
      (by omega) (by omega)
  · have a := checkDigit_collide _ _ _ h9 h9'
    have b := checkDigit_collide _ _ _ h10 h10'
    have ea : ((weightedSum [k0, k1, k2, k3, k4, k5, k6, k7, k8] [10, 9, 8, 7, 6, 5, 4, 3, 2] : Nat) : Int)
        - (weightedSum [k0, k1, k2, k3, x, k5, k6, k7, k8] [10, 9, 8, 7, 6, 5, 4, 3, 2] : Nat) = 6 * ((k4 : Int) - x) := by
      simp only [weightedSum, List.zipWith, List.sum_cons, List.sum_nil]; push_cast; ring
    have eb : ((weightedSum [k0, k1, k2, k3, k4, k5, k6, k7, k8, k9] [11, 10, 9, 8, 7, 6, 5, 4, 3, 2] : Nat) : Int)
        - (weightedSum [k0, k1, k2, k3, x, k5, k6, k7, k8, k9] [11, 10, 9, 8, 7, 6, 5, 4, 3, 2] : Nat) = (6 + 1) * ((k4 : Int) - x) := by
      simp only [weightedSum, List.zipWith, List.sum_cons, List.sum_nil]; push_cast; ring
    rw [ea] at a
    rw [eb] at b
    exact weights_separate 6 ((k4 : Int) - x) (by omega) (by omega) (by omega) a b
      (by omega) (by omega)
  · have a := checkDigit_collide _ _ _ h9 h9'
    have b := checkDigit_collide _ _ _ h10 h10'
    have ea : ((weightedSum [k0, k1, k2, k3, k4, k5, k6, k7, k8] [10, 9, 8, 7, 6, 5, 4, 3, 2] : Nat) : Int)
        - (weightedSum [k0, k1, k2, k3, k4, x, k6, k7, k8] [10, 9, 8, 7, 6, 5, 4, 3, 2] : Nat) = 5 * ((k5 : Int) - x) := by
      simp only [weightedSum, List.zipWith, List.sum_cons, List.sum_nil]; push_cast; ring
    have eb : ((weightedSum [k0, k1, k2, k3, k4, k5, k6, k7, k8, k9] [11, 10, 9, 8, 7, 6, 5, 4, 3, 2] : Nat) : Int)
        - (weightedSum [k0, k1, k2, k3, k4, x, k6, k7, k8, k9] [11, 10, 9, 8, 7, 6, 5, 4, 3, 2] : Nat) = (5 + 1) * ((k5 : Int) - x) := by
      simp only [weightedSum, List.zipWith, List.sum_cons, List.sum_nil]; push_cast; ring
    rw [ea] at a
    rw [eb] at b
    exact weights_separate 5 ((k5 : Int) - x) (by omega) (by omega) (by omega) a b
      (by omega) (by omega)
  · have a := checkDigit_collide _ _ _ h9 h9'
    have b := checkDigit_collide _ _ _ h10 h10'
    have ea : ((weightedSum [k0, k1, k2, k3, k4, k5, k6, k7, k8] [10, 9, 8, 7, 6, 5, 4, 3, 2] : Nat) : Int)
        - (weightedSum [k0, k1, k2, k3, k4, k5, x, k7, k8] [10, 9, 8, 7, 6, 5, 4, 3, 2] : Nat) = 4 * ((k6 : Int) - x) := by
      simp only [weightedSum, List.zipWith, List.sum_cons, List.sum_nil]; push_cast; ring
    have eb : ((weightedSum [k0, k1, k2, k3, k4, k5, k6, k7, k8, k9] [11, 10, 9, 8, 7, 6, 5, 4, 3, 2] : Nat) : Int)
        - (weightedSum [k0, k1, k2, k3, k4, k5, x, k7, k8, k9] [11, 10, 9, 8, 7, 6, 5, 4, 3, 2] : Nat) = (4 + 1) * ((k6 : Int) - x) := by
      simp only [weightedSum, List.zipWith, List.sum_cons, List.sum_nil]; push_cast; ring
    rw [ea] at a
    rw [eb] at b
    exact weights_separate 4 ((k6 : Int) - x) (by omega) (by omega) (by omega) a b
      (by omega) (by omega)
  · have a := checkDigit_collide _ _ _ h9 h9'
    have b := checkDigit_collide _ _ _ h10 h10'
    have ea : ((weightedSum [k0, k1, k2, k3, k4, k5, k6, k7, k8] [10, 9, 8, 7, 6, 5, 4, 3, 2] : Nat) : Int)
        - (weightedSum [k0, k1, k2, k3, k4, k5, k6, x, k8] [10, 9, 8, 7, 6, 5, 4, 3, 2] : Nat) = 3 * ((k7 : Int) - x) := by
      simp only [weightedSum, List.zipWith, List.sum_cons, List.sum_nil]; push_cast; ring
    have eb : ((weightedSum [k0, k1, k2, k3, k4, k5, k6, k7, k8, k9] [11, 10, 9, 8, 7, 6, 5, 4, 3, 2] : Nat) : Int)
        - (weightedSum [k0, k1, k2, k3, k4, k5, k6, x, k8, k9] [11, 10, 9, 8, 7, 6, 5, 4, 3, 2] : Nat) = (3 + 1) * ((k7 : Int) - x) := by
      simp only [weightedSum, List.zipWith, List.sum_cons, List.sum_nil]; push_cast; ring
    rw [ea] at a
    rw [eb] at b
    exact weights_separate 3 ((k7 : Int) - x) (by omega) (by omega) (by omega) a b
      (by omega) (by omega)
  · have a := checkDigit_collide _ _ _ h9 h9'
    have b := checkDigit_collide _ _ _ h10 h10'
    have ea : ((weightedSum [k0, k1, k2, k3, k4, k5, k6, k7, k8] [10, 9, 8, 7, 6, 5, 4, 3, 2] : Nat) : Int)
        - (weightedSum [k0, k1, k2, k3, k4, k5, k6, k7, x] [10, 9, 8, 7, 6, 5, 4, 3, 2] : Nat) = 2 * ((k8 : Int) - x) := by
      simp only [weightedSum, List.zipWith, List.sum_cons, List.sum_nil]; push_cast; ring
    have eb : ((weightedSum [k0, k1, k2, k3, k4, k5, k6, k7, k8, k9] [11, 10, 9, 8, 7, 6, 5, 4, 3, 2] : Nat) : Int)
        - (weightedSum [k0, k1, k2, k3, k4, k5, k6, k7, x, k9] [11, 10, 9, 8, 7, 6, 5, 4, 3, 2] : Nat) = (2 + 1) * ((k8 : Int) - x) := by
      simp only [weightedSum, List.zipWith, List.sum_cons, List.sum_nil]; push_cast; ring
    rw [ea] at a
    rw [eb] at b
    exact weights_separate 2 ((k8 : Int) - x) (by omega) (by omega) (by omega) a b
      (by omega) (by omega)
  · omega
  · omega

theorem docDigits_of_digits (c : String) (h : ∀ r ∈ c.data, isAsciiDigit r = true) :
    docDigits c = c.data.map (fun r => r.toNat - 48) := by
  rw [docDigits, filter_digits_self _ h]

theorem digit_value_inj (r x : Char) (hr : isAsciiDigit r = true) (hx : isAsciiDigit x = true)
    (h : r.toNat - 48 = x.toNat - 48) : r = x := by
  rw [isAsciiDigit_iff] at hr hx
  apply Char.ext
  apply UInt32.ext
  have : r.toNat = x.toNat := by omega
  simpa [Char.toNat, UInt32.toNat] using this

/-- C2 (amended): for every 11-digit string `c` accepted by `IsValidCPF(c, true)`, every
position `i` in 0..10 and every digit `x` different from `c[i]`, the string with `x` at
position `i` is rejected, provided the change is not one of: position 0 with `x = c[0] ± 1`,
position 5 with `x = c[5] ± 2` or `x = c[5] ± 9`. -/
theorem C2_single_digit_corruption_rejected (c : String) (i : Nat) (x : Char)
    (hlen : c.length = 11) (hdig : ∀ r ∈ c.data, isAsciiDigit r = true)
    (hvalid : IsValidCPF c true = true) (hi : i < 11) (hx : isAsciiDigit x = true)
    (hne : c.data[i]? ≠ some x)
    (e0 : i = 0 → ∀ r, c.data[i]? = some r →
      x.toNat ≠ r.toNat + 1 ∧ r.toNat ≠ x.toNat + 1)
    (e5 : i = 5 → ∀ r, c.data[i]? = some r →
      x.toNat ≠ r.toNat + 2 ∧ r.toNat ≠ x.toNat + 2 ∧
        x.toNat ≠ r.toNat + 9 ∧ r.toNat ≠ x.toNat + 9) :
    IsValidCPF (replaceAt c i x) true = false := by
  have hlen' : c.data.length = 11 := hlen
  have hdig' : ∀ r ∈ (replaceAt c i x).data, isAsciiDigit r = true := by
    intro r hr
    rcases List.mem_or_eq_of_mem_set hr with h | h
    · exact hdig r h
    · rw [h]; exact hx
  have hv := (IsValidCPF_iff_cpfSpec c).mp hvalid
  rw [docDigits_of_digits c hdig] at hv
  obtain ⟨r, hr⟩ : ∃ r, c.data[i]? = some r := ⟨c.data[i], List.getElem?_eq_getElem (by omega)⟩
  have hrd : isAsciiDigit r = true := hdig r (List.getElem?_mem hr)
  have hrx : r ≠ x := fun e => hne (by rw [hr, e])
  have hr9 := (isAsciiDigit_iff r).mp hrd
  have hx9 := (isAsciiDigit_iff x).mp hx
  have key := cpfSpec_corrupt (c.data.map (fun r => r.toNat - 48)) i (x.toNat - 48)
    (by
      intro k hk
      obtain ⟨q, hq, rfl⟩ := List.mem_map.mp hk
      have := (isAsciiDigit_iff q).mp (hdig q hq)
      omega)
    (by omega) hv hi
    (by
      rw [List.getElem?_map, hr]
      intro e
      exact hrx (digit_value_inj r x hrd hx (by simpa using e)))
    (by
      intro h0 k hk
      rw [List.getElem?_map, hr] at hk
      have := e0 h0 r hr
      simp only [Option.map_some', Option.some.injEq] at hk
      omega)
    (by
      intro h5 k hk
      rw [List.getElem?_map, hr] at hk
      have := e5 h5 r hr
      simp only [Option.map_some', Option.some.injEq] at hk
      omega)
  cases hres : IsValidCPF (replaceAt c i x) true with
  | false => rfl
  | true =>
    exfalso
    have hv' := (IsValidCPF_iff_cpfSpec _).mp hres
    rw [docDigits_of_digits _ hdig'] at hv'
    apply key
    simpa [replaceAt, List.map_set] using hv'

/-- Witness of C2 (amended): the valid CPF 529.982.247-25 with its digit at position 3
changed from 8 to 7 is rejected. -/
theorem C2_single_digit_corruption_witness :
    IsValidCPF "52998224725" true = true ∧
      IsValidCPF (replaceAt "52998224725" 3 '7') true = false :=
  ⟨by decide, C2_single_digit_corruption_rejected "52998224725" 3 '7' (by decide) (by decide) (by decide) (by decide) (by decide)
    (by decide) (by decide) (by decide)⟩

/-- Counterexample to C2 as stated: the valid CPF 000.071.271-03 with its first digit changed
from 0 to 1 is still accepted, so not every single-digit corruption is rejected. -/
theorem C2_single_digit_corruption_counterexample :
    ¬ (∀ (c : String) (i : Nat) (x : Char), c.length = 11 →
        (∀ r ∈ c.data, isAsciiDigit r = true) → IsValidCPF c true = true → i < 11 →
        isAsciiDigit x = true → c.data[i]? ≠ some x →
        IsValidCPF (replaceAt c i x) true = false) := by
  intro h
  have h1 := h "00007127103" 0 '1' (by decide) (by decide) (by decide) (by decide) (by decide)
    (by decide)
  revert h1
  decide

/-! ## Check digits: CNPJ -/

theorem length_eq_fourteen {α : Type} (l : List α) (h : l.length = 14) :
    ∃ a0 a1 a2 a3 a4 a5 a6 a7 a8 a9 a10 a11 a12 a13,
      l = [a0, a1, a2, a3, a4, a5, a6, a7, a8, a9, a10, a11, a12, a13] := by
  rcases l with _ | ⟨a0, _ | ⟨a1, _ | ⟨a2, _ | ⟨a3, _ | ⟨a4, _ | ⟨a5, _ | ⟨a6, _ | ⟨a7, _ | ⟨a8,
    _ | ⟨a9, _ | ⟨a10, _ | ⟨a11, _ | ⟨a12, _ | ⟨a13, _ | ⟨a14, l⟩⟩⟩⟩⟩⟩⟩⟩⟩⟩⟩⟩⟩⟩⟩ <;> simp at h
  exact ⟨a0, a1, a2, a3, a4, a5, a6, a7, a8, a9, a10, a11, a12, a13, rfl⟩

/-- The CNPJ validator on a list of fourteen digit runes, as arithmetic on their codes. -/
theorem cnpj_digits_eval (c0 c1 c2 c3 c4 c5 c6 c7 c8 c9 c10 c11 c12 c13 : Char)
    (h : ∀ r ∈ [c0, c1, c2, c3, c4, c5, c6, c7, c8, c9, c10, c11, c12, c13],
      isAsciiDigit r = true) :
    (IsValidCNPJ (String.mk [c0, c1, c2, c3, c4, c5, c6, c7, c8, c9, c10, c11, c12, c13]) true
        = true ↔
      cnpjSpec ([c0, c1, c2, c3, c4, c5, c6, c7, c8, c9, c10, c11, c12, c13].map
        (fun r => r.toNat - 48))) := by
  have hf := filter_digits_self _ h
  simp only [List.mem_cons, List.mem_singleton, forall_eq_or_imp, forall_eq, List.not_mem_nil,
    IsEmpty.forall_iff, implies_true, and_true] at h
  obtain ⟨h0, h1, h2, h3, h4, h5, h6, h7, h8, h9, h10, h11, h12, h13⟩ := h
  obtain ⟨k0, -, e0⟩ := digit_code _ h0
  obtain ⟨k1, -, e1⟩ := digit_code _ h1
  obtain ⟨k2, -, e2⟩ := digit_code _ h2
  obtain ⟨k3, -, e3⟩ := digit_code _ h3
  obtain ⟨k4, -, e4⟩ := digit_code _ h4
  obtain ⟨k5, -, e5⟩ := digit_code _ h5
  obtain ⟨k6, -, e6⟩ := digit_code _ h6
  obtain ⟨k7, -, e7⟩ := digit_code _ h7
  obtain ⟨k8, -, e8⟩ := digit_code _ h8
  obtain ⟨k9, -, e9⟩ := digit_code _ h9
  obtain ⟨k10, -, e10⟩ := digit_code _ h10
  obtain ⟨k11, -, e11⟩ := digit_code _ h11
  obtain ⟨k12, -, e12⟩ := digit_code _ h12
  obtain ⟨k13, -, e13⟩ := digit_code _ h13
  have s1 : calculateCNPJDigitSum [c0, c1, c2, c3, c4, c5, c6, c7, c8, c9, c10, c11]
      [5, 4, 3, 2, 9, 8, 7, 6, 5, 4, 3, 2] 0 =
      some ((weightedSum [k0, k1, k2, k3, k4, k5, k6, k7, k8, k9, k10, k11]
        [5, 4, 3, 2, 9, 8, 7, 6, 5, 4, 3, 2] : Nat) : Int) := by
    simp [calculateCNPJDigitSum, weightedSum, e0, e1, e2, e3, e4, e5, e6, e7, e8, e9, e10, e11]
    ring
  have s2 : calculateCNPJDigitSum [c0, c1, c2, c3, c4, c5, c6, c7, c8, c9, c10, c11, c12]
      [6, 5, 4, 3, 2, 9, 8, 7, 6, 5, 4, 3, 2] 0 =
      some ((weightedSum [k0, k1, k2, k3, k4, k5, k6, k7, k8, k9, k10, k11, k12]
        [6, 5, 4, 3, 2, 9, 8, 7, 6, 5, 4, 3, 2] : Nat) : Int) := by
    simp [calculateCNPJDigitSum, weightedSum, e0, e1, e2, e3, e4, e5, e6, e7, e8, e9, e10, e11,
      e12]
    ring
  simp only [IsValidCNPJ, justDigits, hf, calculateCNPJDigit, List.take, s1, s2,
    digitOfSum_natCast, cnpjSpec, allSameDigits, byteAt, allSameDigitsLoop, Option.map_some']
  simp
  simp only [e0, e1, e2, e3, e4, e5, e6, e7, e8, e9, e10, e11, e12, e13,
    Nat.add_sub_cancel_left, Nat.add_left_cancel_iff, imp_iff_not_or]

theorem IsValidCNPJ_iff_cnpjSpec (s : String) :
    IsValidCNPJ s true = true ↔ cnpjSpec (docDigits s) := by
  by_cases hlen : (s.data.filter isAsciiDigit).length = 14
  · obtain ⟨c0, c1, c2, c3, c4, c5, c6, c7, c8, c9, c10, c11, c12, c13, hl⟩ :=
      length_eq_fourteen _ hlen
    have hd : ∀ r ∈ [c0, c1, c2, c3, c4, c5, c6, c7, c8, c9, c10, c11, c12, c13],
        isAsciiDigit r = true := by
      intro r hr
      rw [← hl] at hr
      exact (List.mem_filter.mp hr).2
    have e := cnpj_digits_eval c0 c1 c2 c3 c4 c5 c6 c7 c8 c9 c10 c11 c12 c13 hd
    have e1 : IsValidCNPJ s true
        = IsValidCNPJ (String.mk [c0, c1, c2, c3, c4, c5, c6, c7, c8, c9, c10, c11, c12, c13])
          true := by
      simp only [IsValidCNPJ, justDigits, hl, filter_digits_self _ hd]
    rw [e1, e, docDigits, hl]
  · have h1 : IsValidCNPJ s true = false := by
      simp [IsValidCNPJ, justDigits, String.length, hlen]
    have h2 : ¬ cnpjSpec (docDigits s) := by
      intro h
      apply hlen
      have := h.1
      simpa [docDigits] using this
    simp [h1, h2]

/-- C3: for every string `s`, `IsValidCNPJ(s, true)` is true exactly when the ASCII digits `d`
of `s` are fourteen, are not all identical, `d[12]` is the check digit of `d[0..11]` under the
table 5,4,3,2,9,8,7,6,5,4,3,2 and `d[13]` is the check digit of `d[0..12]` under the table
6,5,4,3,2,9,8,7,6,5,4,3,2. -/
theorem C3_IsValidCNPJ_iff_check_digits (s : String) :
    IsValidCNPJ s true = true ↔
      ((docDigits s).length = 14 ∧ (¬ ∃ a, ∀ x ∈ docDigits s, x = a) ∧
        (docDigits s)[12]? = some (checkDigit
          (weightedSum ((docDigits s).take 12) [5, 4, 3, 2, 9, 8, 7, 6, 5, 4, 3, 2])) ∧
        (docDigits s)[13]? = some (checkDigit
          (weightedSum ((docDigits s).take 13) [6, 5, 4, 3, 2, 9, 8, 7, 6, 5, 4, 3, 2]))) :=
  IsValidCNPJ_iff_cnpjSpec s

/-! ## Optional fields and the format validators -/

/-- C4: for every string `v`, each of `IsValidCPF`, `IsValidCNPJ`, `IsValidEmail`,
`IsValidCEP` and `IsValidPhone` returns true when called with `required = false`. -/
theorem C4_optional_validators_accept (lib : Lib) (v : String) :
    IsValidCPF v false = true ∧ IsValidCNPJ v false = true ∧ IsValidEmail lib v false = true ∧
      IsValidCEP lib v false = true ∧ IsValidPhone lib v false = true := by
  simp [IsValidCPF, IsValidCNPJ, IsValidEmail, IsValidCEP, IsValidPhone]

/-! ## Maps -/

theorem GoMap.get_set {β : Type} (m : GoMap β) (a k : String) (v : β) :
    GoMap.get (GoMap.set m a v) k = if a = k then some v else GoMap.get m k := by
  induction m with
  | nil => simp [GoMap.set, GoMap.get]
  | cons p t ih =>
    obtain ⟨k', v'⟩ := p
    by_cases h : k' = a
    · subst h
      by_cases h2 : k' = k <;> simp [GoMap.set, GoMap.get, h2]
    · by_cases h2 : k' = k
      · subst h2
        simp [GoMap.set, GoMap.get, h, Ne.symm h]
      · simp [GoMap.set, GoMap.get, h, h2, ih]

/-! ## The loop body of ValidateData, key by key -/

theorem regexLoop_get_congr (lib : Lib) (name value : String) (rules : List RegexRule)
    (e e' : GoMap String) (k : String) (h : GoMap.get e k = GoMap.get e' k) :
    GoMap.get (regexLoop lib name value rules e) k
      = GoMap.get (regexLoop lib name value rules e') k := by
  induction rules generalizing e e' with
  | nil => simpa [regexLoop] using h
  | cons rule rest ih =>
    simp only [regexLoop, List.foldl_cons]
    apply ih
    split_ifs <;> simp [GoMap.get_set, h]

theorem regexLoop_get_other (lib : Lib) (name value : String) (rules : List RegexRule)
    (e : GoMap String) (k : String) (hk : k ≠ name) :
    GoMap.get (regexLoop lib name value rules e) k = GoMap.get e k := by
  induction rules generalizing e with
  | nil => simp [regexLoop]
  | cons rule rest ih =>
    simp only [regexLoop, List.foldl_cons]
    rw [show List.foldl _ _ rest = regexLoop lib name value rest _ from rfl, ih]
    split_ifs <;> simp [GoMap.get_set, Ne.symm hk]

theorem convertType_get_congr (lib : Lib) (f : Field) (value : String)
    (st st' : GoMap Value × GoMap String) (k : String)
    (h1 : GoMap.get st.1 k = GoMap.get st'.1 k) (h2 : GoMap.get st.2 k = GoMap.get st'.2 k) :
    GoMap.get (convertType lib f value st).1 k = GoMap.get (convertType lib f value st').1 k ∧
      GoMap.get (convertType lib f value st).2 k
        = GoMap.get (convertType lib f value st').2 k := by
  unfold convertType
  split_ifs <;> (try split) <;> (try split) <;> simp [GoMap.get_set, h1, h2]

theorem convertType_get_other (lib : Lib) (f : Field) (value : String)
    (st : GoMap Value × GoMap String) (k : String) (hk : k ≠ f.Name) :
    GoMap.get (convertType lib f value st).1 k = GoMap.get st.1 k ∧
      GoMap.get (convertType lib f value st).2 k = GoMap.get st.2 k := by
  unfold convertType
  split_ifs <;> (try split) <;> (try split) <;> simp [GoMap.get_set, Ne.symm hk]

theorem validateField_get_congr (lib : Lib) (form : Values) (f : Field)
    (st st' : GoMap Value × GoMap String) (k : String)
    (h1 : GoMap.get st.1 k = GoMap.get st'.1 k) (h2 : GoMap.get st.2 k = GoMap.get st'.2 k)
    (h3 : GoMap.get st.2 f.Name = GoMap.get st'.2 f.Name) :
    GoMap.get (validateField lib form st f).1 k = GoMap.get (validateField lib form st' f).1 k ∧
      GoMap.get (validateField lib form st f).2 k
        = GoMap.get (validateField lib form st' f).2 k := by
  unfold validateField
  simp only []
  by_cases c1 : (f.Required && Values.Get form f.Name == "") = true
  · rw [if_pos c1, if_pos c1]
    simp [GoMap.get_set, h1, h2]
  rw [if_neg c1, if_neg c1]
  by_cases c2 : (!f.Required && Values.Get form f.Name == "") = true
  · rw [if_pos c2, if_pos c2]
    simp [GoMap.get_set, h1, h2]
  rw [if_neg c2, if_neg c2]
  cases standardValidation lib f (Values.Get form f.Name) with
  | some message => simp [GoMap.get_set, h1, h2]
  | none =>
    have hn := regexLoop_get_congr lib f.Name (Values.Get form f.Name)
      f.Validation.RegexRules st.2 st'.2 f.Name h3
    have hk := regexLoop_get_congr lib f.Name (Values.Get form f.Name)
      f.Validation.RegexRules st.2 st'.2 k h2
    simp only [hn]
    by_cases c3 : (GoMap.get (regexLoop lib f.Name (Values.Get form f.Name)
      f.Validation.RegexRules st'.2) f.Name).isSome = true
    · rw [if_pos c3, if_pos c3]
      exact ⟨h1, hk⟩
    · rw [if_neg c3, if_neg c3]
      exact convertType_get_congr lib f _ _ _ k h1 hk

theorem validateField_get_other (lib : Lib) (form : Values) (f : Field)
    (st : GoMap Value × GoMap String) (k : String) (hk : k ≠ f.Name) :
    GoMap.get (validateField lib form st f).1 k = GoMap.get st.1 k ∧
      GoMap.get (validateField lib form st f).2 k = GoMap.get st.2 k := by
  unfold validateField
  simp only []
  by_cases c1 : (f.Required && Values.Get form f.Name == "") = true
  · rw [if_pos c1]
    simp [GoMap.get_set, Ne.symm hk]
  rw [if_neg c1]
  by_cases c2 : (!f.Required && Values.Get form f.Name == "") = true
  · rw [if_pos c2]
    simp [GoMap.get_set, Ne.symm hk]
  rw [if_neg c2]
  cases standardValidation lib f (Values.Get form f.Name) with
  | some message => simp [GoMap.get_set, Ne.symm hk]
  | none =>
    have hr := regexLoop_get_other lib f.Name (Values.Get form f.Name)
      f.Validation.RegexRules st.2 k hk
    simp only []
    by_cases c3 : (GoMap.get (regexLoop lib f.Name (Values.Get form f.Name)
      f.Validation.RegexRules st.2) f.Name).isSome = true
    · rw [if_pos c3]
      exact ⟨rfl, hr⟩
    · rw [if_neg c3]
      have := convertType_get_other lib f (Values.Get form f.Name)
        (st.1, regexLoop lib f.Name (Values.Get form f.Name) f.Validation.RegexRules st.2) k hk
      exact ⟨this.1, this.2.trans hr⟩

theorem foldl_validateField_get_other (lib : Lib) (form : Values) (fields : List Field)
    (st : GoMap Value × GoMap String) (k : String) (hk : k ∉ fields.map Field.Name) :
    GoMap.get (fields.foldl (validateField lib form) st).1 k = GoMap.get st.1 k ∧
      GoMap.get (fields.foldl (validateField lib form) st).2 k = GoMap.get st.2 k := by
  induction fields generalizing st with
  | nil => simp
  | cons f rest ih =>
    simp only [List.map_cons, List.mem_cons, not_or] at hk
    simp only [List.foldl_cons]
    have h := ih (validateField lib form st f) hk.2
    have h' := validateField_get_other lib form f st k hk.1
    exact ⟨h.1.trans h'.1, h.2.trans h'.2⟩

/-- With pairwise distinct field names, what `ValidateData` holds under a field's name is what
one iteration on that field holds there, started from the empty maps. -/
theorem ValidateData_get_field (lib : Lib) (form : Values) (schema : Schema) (f : Field)
    (hnd : (schema.Fields.map Field.Name).Nodup) (hf : f ∈ schema.Fields) :
    GoMap.get (ValidateData lib form schema).1 f.Name
        = GoMap.get (validateField lib form ([], []) f).1 f.Name ∧
      GoMap.get (ValidateData lib form schema).2 f.Name
        = GoMap.get (validateField lib form ([], []) f).2 f.Name := by
  obtain ⟨pre, post, hsplit⟩ := List.append_of_mem hf
  unfold ValidateData
  rw [hsplit] at hnd ⊢
  simp only [List.map_append, List.map_cons] at hnd
  have hpre : f.Name ∉ pre.map Field.Name := by
    intro h
    exact (List.nodup_append.mp hnd).2.2 h (List.mem_cons_self _ _)
  have hpost : f.Name ∉ post.map Field.Name :=
    (List.nodup_cons.mp (List.nodup_append.mp hnd).2.1).1
  simp only [List.foldl_append, List.foldl_cons]
  have a := foldl_validateField_get_other lib form post
    (validateField lib form (pre.foldl (validateField lib form) ([], [])) f) f.Name hpost
  have b := foldl_validateField_get_other lib form pre ([], []) f.Name hpre
  have c := validateField_get_congr lib form f (pre.foldl (validateField lib form) ([], []))
    ([], []) f.Name b.1 b.2 b.2
  exact ⟨a.1.trans c.1, a.2.trans c.2⟩

/-! ## The validation pipeline, field by field -/

/-- C5: in a schema with pairwise distinct field names, a required field whose form value is
absent or empty gets the error "Campo obrigatório" under its name and no entry in the clean
data, whatever its type, validation type, regex rules or mask; the schema of the single
required `int` field `age` with the empty form gives exactly that error and empty clean data. -/
theorem C5_required_empty_field (lib : Lib) (form : Values) (schema : Schema) (f : Field)
    (hnd : (schema.Fields.map Field.Name).Nodup) (hf : f ∈ schema.Fields)
    (hreq : f.Required = true) (hempty : Values.Get form f.Name = "") :
    (GoMap.get (ValidateData lib form schema).2 f.Name = some "Campo obrigatório" ∧
      GoMap.get (ValidateData lib form schema).1 f.Name = none) ∧
    ValidateData lib [] ⟨schema.TableName, [ageField]⟩ = ([], [("age", "Campo obrigatório")]) := by
  refine ⟨?_, by rfl⟩
  obtain ⟨h1, h2⟩ := ValidateData_get_field lib form schema f hnd hf
  rw [h1, h2]
  simp [validateField, hreq, hempty, GoMap.get_set, GoMap.get]

/-- Witness of C5: the required field `age` submitted empty, next to another field. -/
theorem C5_required_empty_field_witness :
    (GoMap.get (ValidateData sampleLib [("age", [""])] ⟨"people", [docField, ageField]⟩).2 "age"
        = some "Campo obrigatório" ∧
      GoMap.get (ValidateData sampleLib [("age", [""])] ⟨"people", [docField, ageField]⟩).1 "age"
        = none) ∧
    ValidateData sampleLib [] ⟨"people", [ageField]⟩ = ([], [("age", "Campo obrigatório")]) :=
  C5_required_empty_field sampleLib [("age", [""])] ⟨"people", [docField, ageField]⟩ ageField
    (by decide) (by decide) (by decide) (by decide)

/-- C6: in a schema with pairwise distinct field names, a field with `required = false` whose
form value is absent or empty gets the explicit null in the clean data and no error,
whatever its declared type, validation type and regex rules. -/
theorem C6_optional_empty_field (lib : Lib) (form : Values) (schema : Schema) (f : Field)
    (hnd : (schema.Fields.map Field.Name).Nodup) (hf : f ∈ schema.Fields)
    (hreq : f.Required = false) (hempty : Values.Get form f.Name = "") :
    GoMap.get (ValidateData lib form schema).1 f.Name = some Value.null ∧
      GoMap.get (ValidateData lib form schema).2 f.Name = none := by
  obtain ⟨h1, h2⟩ := ValidateData_get_field lib form schema f hnd hf
  rw [h1, h2]
  simp [validateField, hreq, hempty, GoMap.get_set, GoMap.get]

/-- Witness of C6: an optional `int` field with an email validator and a regex rule,
submitted empty. -/
theorem C6_optional_empty_field_witness :
    GoMap.get (ValidateData sampleLib [("contact", [""])] ⟨"people", [ageField, optField]⟩).1
        "contact" = some Value.null ∧
      GoMap.get (ValidateData sampleLib [("contact", [""])] ⟨"people", [ageField, optField]⟩).2
        "contact" = none :=
  C6_optional_empty_field sampleLib [("contact", [""])] ⟨"people", [ageField, optField]⟩ optField
    (by decide) (by decide) (by decide) (by decide)

/-- After the regex loop the entry of the field holds the message of the last rule that does
not match: every later rule matches, so none overwrites it. -/
theorem regexLoop_last_failing (lib : Lib) (name value : String) (front back : List RegexRule)
    (r : RegexRule) (e : GoMap String) (hr : lib.MatchString r.Pattern value = false)
    (hback : ∀ q ∈ back, lib.MatchString q.Pattern value = true) :
    GoMap.get (regexLoop lib name value (front ++ r :: back) e) name = some r.Message := by
  have hkeep : ∀ e' : GoMap String, regexLoop lib name value back e' = e' := by
    induction back with
    | nil => intro e'; rfl
    | cons q rest ih =>
      intro e'
      have hq := hback q (List.mem_cons_self _ _)
      simp only [regexLoop, List.foldl_cons, hq, Bool.not_true, Bool.false_eq_true, if_false]
      exact ih (fun x hx => hback x (List.mem_cons_of_mem _ hx)) e'
  simp only [regexLoop, List.foldl_append, List.foldl_cons, hr, Bool.not_false, if_true]
  rw [show List.foldl _ _ back = regexLoop lib name value back _ from rfl, hkeep]
  simp [GoMap.get_set]

/-- C7 (the code at the failing input): a required string field with the rules
(`x`, "needs x") then (`y`, "needs y") and the value `ab`, which matches neither. The error
recorded is the message of the second rule, where the claim says the first; no clean value is
stored. -/
theorem C7_last_failing_rule_recorded :
    ValidateData sampleLib [("code", ["ab"])] ⟨"items", [codeField]⟩
      = ([], [("code", "needs y")]) := by
  decide

theorem checkDigit_same_digits (k : Nat) (hk : k ≤ 9) :
    checkDigit (54 * k) = k ∧ checkDigit (65 * k) = k := by
  interval_cases k <;> decide

theorem validateField_cpf_reject (lib : Lib) (form : Values) (f : Field)
    (st : GoMap Value × GoMap String) (hreq : f.Required = true)
    (hval : f.Validation.Type_ = "cpf") (hne : Values.Get form f.Name ≠ "")
    (hcpf : IsValidCPF (Values.Get form f.Name) true = false) :
    validateField lib form st f = (st.1, GoMap.set st.2 f.Name "CPF inválido") := by
  simp [validateField, hreq, hne, standardValidation, hval, hcpf]

/-- C8: for every ASCII digit `c`, a required field with validation type `cpf` (of any
declared type, a string field in particular) whose form value is `c` repeated eleven times
gets the error "CPF inválido" and no clean value; the value is caught by the all-same-digit
check, while its two check digits do agree with the weighted-sum rule. -/
theorem C8_same_digit_cpf_rejected (lib : Lib) (form : Values) (schema : Schema) (f : Field) (c : Char)
    (hnd : (schema.Fields.map Field.Name).Nodup) (hf : f ∈ schema.Fields)
    (hreq : f.Required = true) (hval : f.Validation.Type_ = "cpf")
    (hc : isAsciiDigit c = true)
    (hv : Values.Get form f.Name = String.mk (List.replicate 11 c)) :
    (GoMap.get (ValidateData lib form schema).2 f.Name = some "CPF inválido" ∧
      GoMap.get (ValidateData lib form schema).1 f.Name = none) ∧
    (allSameDigits (String.mk (List.replicate 11 c)) = true ∧
      calculateDigit (String.mk (List.replicate 9 c)) 10 = c.toNat ∧
      calculateDigit (String.mk (List.replicate 10 c)) 11 = c.toNat) := by
  obtain ⟨k, hk, ek⟩ := digit_code c hc
  have hall : allSameDigits (String.mk (List.replicate 11 c)) = true := by
    simp [allSameDigits, allSameDigitsLoop, byteAt, List.replicate]
  have hcpf : IsValidCPF (String.mk (List.replicate 11 c)) true = false := by
    have hfil : List.filter isAsciiDigit (List.replicate 11 c) = List.replicate 11 c := by
      apply filter_digits_self
      intro r hr
      rw [List.eq_of_mem_replicate hr]; exact hc
    simp only [IsValidCPF, justDigits, hfil, hall]
    simp
  refine ⟨?_, hall, ?_, ?_⟩
  · obtain ⟨h1, h2⟩ := ValidateData_get_field lib form schema f hnd hf
    rw [h1, h2]
    have hne : Values.Get form f.Name ≠ "" := by
      rw [hv]
      simp [List.replicate, String.ext_iff]
    rw [← hv] at hcpf
    rw [validateField_cpf_reject lib form f _ hreq hval hne hcpf]
    simp [GoMap.get_set, GoMap.get]
  · have hs : calculateDigitSum (List.replicate 9 c) 10 0 = ((54 * k : Nat) : Int) := by
      simp [List.replicate, calculateDigitSum, ek]; ring
    rw [calculateDigit, hs, digitOfSum_natCast, (checkDigit_same_digits k hk).1, ek]
  · have hs : calculateDigitSum (List.replicate 10 c) 11 0 = ((65 * k : Nat) : Int) := by
      simp [List.replicate, calculateDigitSum, ek]; ring
    rw [calculateDigit, hs, digitOfSum_natCast, (checkDigit_same_digits k hk).2, ek]

/-- Witness of C8: the value 11111111111 in a required string field validated as CPF. -/
theorem C8_same_digit_cpf_rejected_witness :
    (GoMap.get (ValidateData sampleLib [("doc", ["11111111111"])] ⟨"people", [docField]⟩).2 "doc"
        = some "CPF inválido" ∧
      GoMap.get (ValidateData sampleLib [("doc", ["11111111111"])] ⟨"people", [docField]⟩).1 "doc"
        = none) ∧
    (allSameDigits "11111111111" = true ∧ calculateDigit "111111111" 10 = 49 ∧
      calculateDigit "1111111111" 11 = 49) :=
  C8_same_digit_cpf_rejected sampleLib [("doc", ["11111111111"])] ⟨"people", [docField]⟩
    docField '1' (by decide) (by decide) (by decide) (by decide) (by decide) (by decide)

/-! ## The mask engine -/

theorem formatLoop_acc (lib : Lib) (mask input acc : List Char) :
    formatLoop lib mask input acc = acc ++ formatLoop lib mask input [] := by
  induction mask generalizing input acc with
  | nil => simp [formatLoop]
  | cons m ms ih =>
    cases input with
    | nil => simp [formatLoop]
    | cons i is =>
      simp only [formatLoop]
      by_cases h : (!(processMaskCharacter lib m i).Valid) = true
      · rw [if_pos h, if_pos h]; simp
      · rw [if_neg h, if_neg h, ih _ (acc ++ _), ih _ ([] ++ _)]
        simp

theorem formatLoop_cons (lib : Lib) (m i : Char) (ms is : List Char) :
    formatLoop lib (m :: ms) (i :: is) [] =
      if (processMaskCharacter lib m i).Valid = false then []
      else (processMaskCharacter lib m i).Character ::
        formatLoop lib ms (if (processMaskCharacter lib m i).Consumed then is else i :: is) [] := by
  cases hV : (processMaskCharacter lib m i).Valid with
  | false => simp [formatLoop, hV]
  | true =>
    simp only [formatLoop, hV]
    rw [formatLoop_acc]
    simp

theorem isPlaceholder_iff (m : Char) :
    ([ANY_MASK, DIGIT_MASK, CHARACTER_MASK].any (fun placeholder => m == placeholder)) = true ↔
      (m = '*' ∨ m = '9' ∨ m = '#') := by
  simp [ANY_MASK, DIGIT_MASK, CHARACTER_MASK]

theorem formatLoop_idem (lib : Lib) (mask v : List Char) :
    formatLoop lib mask (formatLoop lib mask v []) [] = formatLoop lib mask v [] := by
  induction mask generalizing v with
  | nil => simp [formatLoop]
  | cons m ms ih =>
    cases v with
    | nil => simp [formatLoop]
    | cons i is =>
      rw [formatLoop_cons lib m i]
      by_cases hv : (processMaskCharacter lib m i).Valid = false
      · rw [if_pos hv]; simp [formatLoop]
      · rw [if_neg hv, formatLoop_cons]
        by_cases hp : ([ANY_MASK, DIGIT_MASK, CHARACTER_MASK].any
            (fun placeholder => m == placeholder)) = true
        · have e : ∀ x, processMaskCharacter lib m x =
              { Valid := isValidChar lib x m, Character := x, Consumed := true } := by
            intro x; simp only [processMaskCharacter, hp, if_true]
          rw [e] at hv
          simp only [e] at hv ⊢
          simp only [Bool.not_eq_false] at hv
          simp [hv, ih]
        · have e : ∀ x, processMaskCharacter lib m x =
              { Valid := true, Character := m, Consumed := x == m } := by
            intro x; simp only [processMaskCharacter, hp]; simp
          rw [e, e]
          simp [ih]

/-- C10: `FormatValueByMask` is idempotent in its value argument, for every mask and every
value. -/
theorem C10_FormatValueByMask_idempotent (lib : Lib) (mask v : String) :
    FormatValueByMask lib mask (FormatValueByMask lib mask v) = FormatValueByMask lib mask v := by
  unfold FormatValueByMask
  by_cases h : mask = ""
  · simp [h]
  · simp only [h, if_false, formatLoop_idem]

theorem unicodeIsDigit_of_ascii (lib : Lib) (r : Char) (h : isAsciiDigit r = true) :
    unicodeIsDigit lib r = true := by
  have h' := (isAsciiDigit_iff r).mp h
  unfold unicodeIsDigit
  rw [if_pos (by omega)]
  exact h

/-- The format loop on a mask whose wildcards are all `9` and whose literals do not occur in
the value, when the value has one digit per wildcard and the mask ends in a wildcard: the
output has the length of the mask, the digits at the wildcards and the literals elsewhere. -/
theorem formatLoop_digits (lib : Lib) (mask v : List Char)
    (hw : ∀ m ∈ mask, m ≠ '#' ∧ m ≠ '*')
    (hl : ∀ m ∈ mask, m ≠ '9' → m ∉ v)
    (hv : ∀ r ∈ v, unicodeIsDigit lib r = true)
    (hlast : mask = [] ∨ mask.getLast? = some '9')
    (hcount : v.length = mask.count '9') :
    (formatLoop lib mask v []).length = mask.length ∧
      ∀ j, j < mask.length → (formatLoop lib mask v [])[j]? =
        if mask[j]? = some '9' then v[(mask.take j).count '9']? else mask[j]? := by
  induction mask generalizing v with
  | nil => simp [formatLoop]
  | cons m ms ih =>
    have hw' : ∀ x ∈ ms, x ≠ '#' ∧ x ≠ '*' := fun x hx => hw x (List.mem_cons_of_mem _ hx)
    have hm := hw m (List.mem_cons_self _ _)
    cases v with
    | nil =>
      exfalso
      simp only [List.length_nil] at hcount
      have hnot : '9' ∉ m :: ms := List.count_eq_zero.mp hcount.symm
      rcases hlast with h | h
      · simp at h
      · exact hnot (List.mem_of_getLast?_eq_some h)
    | cons d ds =>
      by_cases h9 : m = '9'
      · subst h9
        have e : processMaskCharacter lib '9' d =
            { Valid := true, Character := d, Consumed := true } := by
          have := hv d (List.mem_cons_self _ _)
          simp [processMaskCharacter, ANY_MASK, DIGIT_MASK, CHARACTER_MASK, isValidChar, this]
        have hlast' : ms = [] ∨ ms.getLast? = some '9' := by
          rcases ms with _ | ⟨a, t⟩
          · exact Or.inl rfl
          · right
            rcases hlast with h | h
            · simp at h
            · simpa [List.getLast?_cons_cons] using h
        have hcount' : ds.length = ms.count '9' := by
          simpa [List.count_cons] using hcount
        obtain ⟨il, ij⟩ := ih ds hw'
          (fun x hx hx9 hxd => hl x (List.mem_cons_of_mem _ hx) hx9 (List.mem_cons_of_mem _ hxd))
          (fun r hr => hv r (List.mem_cons_of_mem _ hr)) hlast' hcount'
        rw [formatLoop_cons, e]
        simp only [Bool.true_eq_false, if_false, if_true, List.length_cons]
        refine ⟨by rw [il], ?_⟩
        intro j hj
        cases j with
        | zero => simp
        | succ j =>
          have := ij j (by omega)
          simp only [List.getElem?_cons_succ, List.take_succ_cons, List.count_cons_self]
          exact this
      · have hdm : d ≠ m := by
          intro e
          exact hl m (List.mem_cons_self _ _) h9 (e ▸ List.mem_cons_self _ _)
        have e : processMaskCharacter lib m d =
            { Valid := true, Character := m, Consumed := false } := by
          simp [processMaskCharacter, ANY_MASK, DIGIT_MASK, CHARACTER_MASK, hm.1, hm.2, h9, hdm]
        have hne : ms ≠ [] := by
          rintro rfl
          rcases hlast with h | h
          · simp at h
          · simp at h; exact h9 h
        have hlast' : ms = [] ∨ ms.getLast? = some '9' := by
          right
          rcases ms with _ | ⟨a, t⟩
          · exact absurd rfl hne
          · rcases hlast with h | h
            · simp at h
            · simpa [List.getLast?_cons_cons] using h
        have hcount' : (d :: ds).length = ms.count '9' := by
          rw [hcount, List.count_cons_of_ne (Ne.symm h9)]
        obtain ⟨il, ij⟩ := ih (d :: ds) hw'
          (fun x hx hx9 => hl x (List.mem_cons_of_mem _ hx) hx9) hv hlast' hcount'
        rw [formatLoop_cons, e]
        simp only [Bool.true_eq_false, Bool.false_eq_true, if_false, List.length_cons]
        refine ⟨by rw [il], ?_⟩
        intro j hj
        cases j with
        | zero => simp [h9]
        | succ j =>
          have := ij j (by simpa using hj)
          simp only [List.getElem?_cons_succ, List.take_succ_cons,
            List.count_cons_of_ne (Ne.symm h9)]
          exact this

/-- C9: for a mask whose only wildcard is `9`, whose literals are not ASCII digits and whose
last character is a wildcard, and a value of exactly as many ASCII digits as the mask has
wildcards, the output of `FormatValueByMask` has the length of the mask, carries at the
position of the k-th wildcard the k-th digit of the value and at every other position the
literal of the mask; and the mask 999.999.999-99 turns 12345678901 into 123.456.789-01. -/
theorem C9_format_digits_by_mask (lib : Lib) (mask v : String)
    (hw : ∀ m ∈ mask.data, m ≠ '#' ∧ m ≠ '*')
    (hl : ∀ m ∈ mask.data, m ≠ '9' → isAsciiDigit m = false)
    (hlast : mask.data.getLast? = some '9')
    (hv : ∀ r ∈ v.data, isAsciiDigit r = true)
    (hcount : v.data.length = mask.data.count '9') :
    ((FormatValueByMask lib mask v).data.length = mask.data.length ∧
      ∀ j, j < mask.data.length → (FormatValueByMask lib mask v).data[j]? =
        if mask.data[j]? = some '9' then v.data[(mask.data.take j).count '9']?
        else mask.data[j]?) ∧
    FormatValueByMask lib "999.999.999-99" "12345678901" = "123.456.789-01" := by
  refine ⟨?_, rfl⟩
  have hne : mask ≠ "" := by
    intro h
    rw [h] at hlast
    simp at hlast
  have key := formatLoop_digits lib mask.data v.data hw
    (by
      intro m hm h9 hmv
      have h1 := hl m hm h9
      rw [hv m hmv] at h1
      exact Bool.noConfusion h1)
    (fun r hr => unicodeIsDigit_of_ascii lib r (hv r hr)) (Or.inr hlast) hcount
  simpa [FormatValueByMask, hne] using key

/-- Witness of C9: the CPF mask and an eleven-digit value. -/
theorem C9_format_digits_by_mask_witness :
    ((FormatValueByMask sampleLib "999.999.999-99" "12345678901").data.length = 14 ∧
      ∀ j, j < ("999.999.999-99" : String).data.length →
        (FormatValueByMask sampleLib "999.999.999-99" "12345678901").data[j]? =
          if ("999.999.999-99" : String).data[j]? = some '9' then
            ("12345678901" : String).data[(("999.999.999-99" : String).data.take j).count '9']?
          else ("999.999.999-99" : String).data[j]?) ∧
    FormatValueByMask sampleLib "999.999.999-99" "12345678901" = "123.456.789-01" :=
  C9_format_digits_by_mask sampleLib "999.999.999-99" "12345678901" (by decide) (by decide)
    (by decide) (by decide) (by decide)

/-! ## Cleaning and formatting -/

theorem CleanValueByMask_eq_filter (field : Field) (v : String) (h : field.Mask ≠ "") :
    CleanValueByMask field v = String.mk (v.data.filter (fun r => !strippedChars.contains r)) := by
  simp only [CleanValueByMask, h, if_false, List.foldl, List.filter_filter]
  congr 1
  apply List.filter_congr
  intro r _
  rw [Bool.eq_iff_iff]
  simp [strippedChars]
  tauto

theorem processMaskCharacter_wildcard (lib : Lib) (m c : Char) (hm : isWildcard m = true) :
    processMaskCharacter lib m c =
      { Valid := isValidChar lib c m, Character := c, Consumed := true } := by
  have : ([ANY_MASK, DIGIT_MASK, CHARACTER_MASK].any (fun placeholder => m == placeholder))
      = true := by
    simp [isWildcard] at hm
    simp [ANY_MASK, DIGIT_MASK, CHARACTER_MASK]
    tauto
  simp only [processMaskCharacter, this, if_true]

theorem processMaskCharacter_literal (lib : Lib) (m c : Char) (hm : isWildcard m = false) :
    processMaskCharacter lib m c = { Valid := true, Character := m, Consumed := c == m } := by
  have : ([ANY_MASK, DIGIT_MASK, CHARACTER_MASK].any (fun placeholder => m == placeholder))
      = false := by
    simp [isWildcard] at hm
    simp [ANY_MASK, DIGIT_MASK, CHARACTER_MASK]
    tauto
  simp only [processMaskCharacter, this]
  simp

/-- A non-empty well-formed value leaves a character that cleaning keeps in the output of the
format loop. -/
theorem strip_formatLoop_ne_nil (lib : Lib) (mask : List Char) (c : Char) (cs : List Char)
    (hlen : (c :: cs).length ≤ (mask.filter isWildcard).length)
    (hval : ∀ p ∈ (c :: cs).zip (mask.filter isWildcard), isValidChar lib p.1 p.2 = true)
    (hB : ∀ x ∈ c :: cs, strippedChars.contains x = false)
    (hC : ∀ m ∈ mask, isWildcard m = false → m ∉ c :: cs) :
    (formatLoop lib mask (c :: cs) []).filter (fun r => !strippedChars.contains r) ≠ [] := by
  induction mask with
  | nil => simp at hlen
  | cons m ms ih =>
    rw [formatLoop_cons]
    cases hm : isWildcard m with
    | true =>
      rw [List.filter_cons_of_pos hm] at hlen hval
      have hv : isValidChar lib c m = true := hval (c, m) (by simp)
      have hc := hB c (List.mem_cons_self _ _)
      rw [processMaskCharacter_wildcard lib m c hm]
      simp only [hv, Bool.true_eq_false, if_false, if_true]
      rw [List.filter_cons_of_pos (by simp only [hc, Bool.not_false])]
      exact List.cons_ne_nil _ _
    | false =>
      rw [List.filter_cons_of_neg (by simp [hm])] at hlen hval
      have hcm : c ≠ m := fun e => hC m (List.mem_cons_self _ _) hm (e ▸ List.mem_cons_self _ _)
      rw [processMaskCharacter_literal lib m c hm]
      have hne := ih hlen hval (fun x hx => hC x (List.mem_cons_of_mem _ hx))
      simp only [Bool.true_eq_false, if_false, beq_iff_eq, hcm]
      by_cases hs : strippedChars.contains m = true
      · rw [List.filter_cons_of_neg (by simp only [hs, Bool.not_true]; simp)]
        exact hne
      · rw [List.filter_cons_of_pos (by simpa using hs)]
        exact List.cons_ne_nil _ _

/-- Formatting, cleaning and formatting again gives the format back, for a well-formed value
that holds none of the stripped characters and none of the mask's literals. -/
theorem formatLoop_strip_formatLoop (lib : Lib) (mask v : List Char)
    (hlen : v.length ≤ (mask.filter isWildcard).length)
    (hval : ∀ p ∈ v.zip (mask.filter isWildcard), isValidChar lib p.1 p.2 = true)
    (hB : ∀ x ∈ v, strippedChars.contains x = false)
    (hC : ∀ m ∈ mask, isWildcard m = false → m ∉ v) :
    formatLoop lib mask
        ((formatLoop lib mask v []).filter (fun r => !strippedChars.contains r)) []
      = formatLoop lib mask v [] := by
  induction mask generalizing v with
  | nil => simp [formatLoop]
  | cons m ms ih =>
    cases v with
    | nil => simp [formatLoop]
    | cons c cs =>
      have hCtail : ∀ x ∈ ms, isWildcard x = false → x ∉ c :: cs :=
        fun x hx => hC x (List.mem_cons_of_mem _ hx)
      rw [formatLoop_cons lib m c]
      cases hm : isWildcard m with
      | true =>
        rw [List.filter_cons_of_pos hm] at hlen hval
        have hv : isValidChar lib c m = true := hval (c, m) (by simp)
        have hc := hB c (List.mem_cons_self _ _)
        have ih' := ih cs (Nat.le_of_succ_le_succ hlen)
          (fun p hp => hval p (List.mem_cons_of_mem _ hp))
          (fun x hx => hB x (List.mem_cons_of_mem _ hx))
          (fun x hx hw hxc => hCtail x hx hw (List.mem_cons_of_mem _ hxc))
        rw [processMaskCharacter_wildcard lib m c hm]
        simp only [hv, Bool.true_eq_false, if_false, if_true]
        rw [List.filter_cons_of_pos (by simp only [hc, Bool.not_false]), formatLoop_cons,
          processMaskCharacter_wildcard lib m c hm]
        simp only [hv, Bool.true_eq_false, if_false, if_true, ih']
      | false =>
        rw [List.filter_cons_of_neg (by simp [hm])] at hlen hval
        have hcm : c ≠ m := fun e => hC m (List.mem_cons_self _ _) hm (e ▸ List.mem_cons_self _ _)
        have ih' := ih (c :: cs) hlen hval hB hCtail
        rw [processMaskCharacter_literal lib m c hm]
        simp only [Bool.true_eq_false, if_false, beq_iff_eq, hcm]
        by_cases hs : strippedChars.contains m = true
        · rw [List.filter_cons_of_neg (by simp only [hs, Bool.not_true]; simp)]
          have hne := strip_formatLoop_ne_nil lib ms c cs hlen hval hB hCtail
          obtain ⟨y, ys, hy⟩ := List.exists_cons_of_ne_nil hne
          have hymem : y ∈ (formatLoop lib ms (c :: cs) []).filter
              (fun r => !strippedChars.contains r) := by rw [hy]; exact List.mem_cons_self _ _
          have hyS : strippedChars.contains y = false := by
            simpa using (List.mem_filter.mp hymem).2
          have hym : y ≠ m := by
            intro e
            rw [e] at hyS
            rw [hyS] at hs
            exact Bool.noConfusion hs
          rw [hy, formatLoop_cons, processMaskCharacter_literal lib m y hm]
          simp only [Bool.true_eq_false, if_false, beq_iff_eq, hym]
          rw [← hy, ih']
        · rw [List.filter_cons_of_pos (by simpa using hs), formatLoop_cons,
            processMaskCharacter_literal lib m m hm]
          simp only [Bool.true_eq_false, if_false, beq_self_eq_true, if_true, ih']

/-- C11 (amended): for every field with a non-empty mask and every value that is well-formed
for the mask, holds none of the seven characters the cleaning strips and none of the mask's
literal characters, formatting, cleaning and formatting again reproduces the formatted
string. -/
theorem C11_format_clean_format (lib : Lib) (field : Field) (v : String)
    (hmask : field.Mask ≠ "") (hwf : wellFormedFor lib field.Mask v = true)
    (hstrip : ∀ x ∈ v.data, x ∉ strippedChars)
    (hlit : ∀ m ∈ field.Mask.data, isWildcard m = false → m ∉ v.data) :
    FormatValueByMask lib field.Mask
        (CleanValueByMask field (FormatValueByMask lib field.Mask v))
      = FormatValueByMask lib field.Mask v := by
  simp only [wellFormedFor, Bool.and_eq_true, decide_eq_true_eq, List.all_eq_true] at hwf
  have key := formatLoop_strip_formatLoop lib field.Mask.data v.data hwf.1 hwf.2
    (fun x hx => by simpa using hstrip x hx) hlit
  rw [CleanValueByMask_eq_filter field _ hmask]
  simp only [FormatValueByMask, hmask, if_false, key]

/-- Witness of C11 (amended): the CPF mask and an eleven-digit value. -/
theorem C11_format_clean_format_witness :
    FormatValueByMask sampleLib maskedField.Mask
        (CleanValueByMask maskedField (FormatValueByMask sampleLib maskedField.Mask
          "12345678901"))
      = FormatValueByMask sampleLib maskedField.Mask "12345678901" :=
  C11_format_clean_format sampleLib maskedField "12345678901" (by decide) (by decide)
    (by decide) (by decide)

/-- Counterexample to C11 as stated: under the mask `*` the value `.` is well-formed and is
formatted to `.`, which the cleaning empties, so the second formatting gives the empty
string. -/
theorem C11_format_clean_format_counterexample :
    ¬ (∀ (lib : Lib) (field : Field) (v : String), field.Mask ≠ "" →
        wellFormedFor lib field.Mask v = true →
        FormatValueByMask lib field.Mask
            (CleanValueByMask field (FormatValueByMask lib field.Mask v))
          = FormatValueByMask lib field.Mask v) := by
  intro h
  have h1 := h sampleLib anyMaskField "." (by decide) (by decide)
  revert h1
  decide

/-- A second way the round trip breaks, with digit and letter wildcards only: under the mask
`91-9#` the well-formed value `11a` loses its second digit to the literal `1`, is formatted
to `11-`, cleaned to `11` and formatted again to `11`. -/
theorem format_clean_format_literal_digit :
    wellFormedFor sampleLib "91-9#" "11a" = true ∧
      FormatValueByMask sampleLib "91-9#" "11a" = "11-" ∧
      FormatValueByMask sampleLib "91-9#"
        (CleanValueByMask { maskedField with Mask := "91-9#" }
          (FormatValueByMask sampleLib "91-9#" "11a")) = "11" := by
  decide

/-! ## One iteration from the empty maps -/

theorem value_ne_empty (req : Bool) (value : String)
    (c1 : ¬ (req && value == "") = true) (c2 : ¬ (!req && value == "") = true) :
    value ≠ "" := by
  intro h
  cases req <;> simp [h] at c1 c2

/-- The clean value of a string or text field, when one iteration stores a string, is the
cleaned form value. -/
theorem validateField_string_clean (lib : Lib) (form : Values) (f : Field) (s : String)
    (hty : f.Type_ = "string" ∨ f.Type_ = "text")
    (h : GoMap.get (validateField lib form ([], []) f).1 f.Name = some (Value.str s)) :
    s = CleanValueByMask f (Values.Get form f.Name) := by
  unfold validateField at h
  simp only [] at h
  by_cases c1 : (f.Required && Values.Get form f.Name == "") = true
  · rw [if_pos c1] at h
    simp [GoMap.get] at h
  rw [if_neg c1] at h
  by_cases c2 : (!f.Required && Values.Get form f.Name == "") = true
  · rw [if_pos c2] at h
    simp [GoMap.get_set, GoMap.get] at h
  rw [if_neg c2] at h
  cases hsv : standardValidation lib f (Values.Get form f.Name) with
  | some message =>
    rw [hsv] at h
    simp [GoMap.get] at h
  | none =>
    rw [hsv] at h
    simp only [] at h
    by_cases c3 : (GoMap.get (regexLoop lib f.Name (Values.Get form f.Name)
      f.Validation.RegexRules []) f.Name).isSome = true
    · rw [if_pos c3] at h
      simp [GoMap.get] at h
    · rw [if_neg c3] at h
      have hconv : convertType lib f (Values.Get form f.Name)
          ([], regexLoop lib f.Name (Values.Get form f.Name) f.Validation.RegexRules [])
          = (GoMap.set [] f.Name (Value.str (CleanValueByMask f (Values.Get form f.Name))),
            regexLoop lib f.Name (Values.Get form f.Name) f.Validation.RegexRules []) := by
        unfold convertType
        rcases hty with e | e <;> simp [e]
      rw [hconv] at h
      simp [GoMap.get_set] at h
      exact h.symm

/-- C12 (amended): for every field with a non-empty mask and every value `v`,
`CleanValueByMask(field, v)` is `v` without the seven characters `.`, `-`, `(`, `)`, `/`,
space and `_`, the other characters kept in order; so the string `ValidateData` stores for a
string or text field with a non-empty mask holds none of the seven. For a field with an empty
mask `CleanValueByMask` returns the value unchanged. -/
theorem C12_clean_strips_punctuation (lib : Lib) (form : Values) (schema : Schema) (f : Field) (v : String)
    (hmask : f.Mask ≠ "") (hnd : (schema.Fields.map Field.Name).Nodup)
    (hf : f ∈ schema.Fields) (hty : f.Type_ = "string" ∨ f.Type_ = "text") :
    CleanValueByMask f v = String.mk (v.data.filter (fun r => decide (r ∉ strippedChars))) ∧
      (∀ x ∈ (CleanValueByMask f v).data, x ∉ strippedChars) ∧
      (∀ s, GoMap.get (ValidateData lib form schema).1 f.Name = some (Value.str s) →
        ∀ x ∈ s.data, x ∉ strippedChars) ∧
      (∀ g : Field, g.Mask = "" → CleanValueByMask g v = v) := by
  have hfil : ∀ w : String, CleanValueByMask f w
      = String.mk (w.data.filter (fun r => decide (r ∉ strippedChars))) := by
    intro w
    rw [CleanValueByMask_eq_filter f w hmask]
    congr 1
    apply List.filter_congr
    intro r _
    simp
  have hnone : ∀ w : String, ∀ x ∈ (CleanValueByMask f w).data, x ∉ strippedChars := by
    intro w x hx
    rw [hfil] at hx
    simpa using (List.mem_filter.mp hx).2
  refine ⟨hfil v, hnone v, ?_, ?_⟩
  · intro s hs
    rw [(ValidateData_get_field lib form schema f hnd hf).1] at hs
    rw [validateField_string_clean lib form f s hty hs]
    exact hnone _
  · intro g hg
    simp [CleanValueByMask, hg]

/-- Witness of C12 (amended): the CPF-masked field and a formatted CPF. -/
theorem C12_clean_strips_punctuation_witness :
    CleanValueByMask maskedField "123.456.789-01" = "12345678901" ∧
      ∀ x ∈ (CleanValueByMask maskedField "123.456.789-01").data, x ∉ strippedChars :=
  ⟨by decide,
    (C12_clean_strips_punctuation sampleLib [("cpf", ["123.456.789-01"])]
      ⟨"people", [maskedField]⟩ maskedField "123.456.789-01" (by decide) (by decide)
      (by decide) (by decide)).2.1⟩

/-- Counterexample to C12 as stated: a field without a mask keeps the value `a.b` as it is,
and `ValidateData` stores `a.b`, dot included, for such a string field. -/
theorem C12_clean_strips_punctuation_counterexample :
    ¬ (∀ (field : Field) (v : String), CleanValueByMask field v
        = String.mk (v.data.filter (fun r => decide (r ∉ strippedChars)))) ∧
      ValidateData sampleLib [("note", ["a.b"])] ⟨"notes", [plainField]⟩
        = ([("note", Value.str "a.b")], []) := by
  refine ⟨?_, by decide⟩
  intro h
  have h1 := h plainField "a.b"
  revert h1
  decide

/-! ## Every field has one outcome -/

/-- The type conversion of a non-empty value, started without an error for the field, ends
with exactly one of a clean value and an error under the field's name. -/
theorem convertType_partition (lib : Lib) (f : Field) (value : String) (e : GoMap String)
    (hne : value ≠ "") (he : GoMap.get e f.Name = none) :
    ((GoMap.get (convertType lib f value ([], e)).1 f.Name).isSome = true ∧
        GoMap.get (convertType lib f value ([], e)).2 f.Name = none) ∨
      (GoMap.get (convertType lib f value ([], e)).1 f.Name = none ∧
        (GoMap.get (convertType lib f value ([], e)).2 f.Name).isSome = true) := by
  have hb : (value == "") = false := by simpa using hne
  unfold convertType
  by_cases h1 : f.Type_ = "int"
  · rw [if_pos h1]
    simp only [hb, Bool.and_false, Bool.false_eq_true, if_false]
    cases Atoi value <;> simp [GoMap.get_set, GoMap.get, he]
  rw [if_neg h1]
  by_cases h2 : f.Type_ = "date"
  · rw [if_pos h2]
    cases timeParse "2006-01-02" value with
    | some d => simp [GoMap.get_set, GoMap.get, he]
    | none => cases timeParse "02/01/2006" value <;> simp [GoMap.get_set, GoMap.get, he]
  rw [if_neg h2]
  by_cases h3 : f.Type_ = "float"
  · rw [if_pos h3]
    cases lib.ParseFloat value <;> simp [GoMap.get_set, GoMap.get, he]
  rw [if_neg h3]
  by_cases h4 : f.Type_ = "string" ∨ f.Type_ = "text"
  · rw [if_pos h4]
    simp [GoMap.get_set, GoMap.get, he]
  · rw [if_neg h4]
    simp [GoMap.get_set, GoMap.get, he]

/-- One iteration from the empty maps ends with exactly one of a clean value and an error
under the field's name. -/
theorem validateField_partition (lib : Lib) (form : Values) (f : Field) :
    ((GoMap.get (validateField lib form ([], []) f).1 f.Name).isSome = true ∧
        GoMap.get (validateField lib form ([], []) f).2 f.Name = none) ∨
      (GoMap.get (validateField lib form ([], []) f).1 f.Name = none ∧
        (GoMap.get (validateField lib form ([], []) f).2 f.Name).isSome = true) := by
  unfold validateField
  simp only []
  by_cases c1 : (f.Required && Values.Get form f.Name == "") = true
  · rw [if_pos c1]
    simp [GoMap.get_set, GoMap.get]
  rw [if_neg c1]
  by_cases c2 : (!f.Required && Values.Get form f.Name == "") = true
  · rw [if_pos c2]
    simp [GoMap.get_set, GoMap.get]
  rw [if_neg c2]
  have hne := value_ne_empty _ _ c1 c2
  cases standardValidation lib f (Values.Get form f.Name) with
  | some message => simp [GoMap.get_set, GoMap.get]
  | none =>
    simp only []
    by_cases c3 : (GoMap.get (regexLoop lib f.Name (Values.Get form f.Name)
      f.Validation.RegexRules []) f.Name).isSome = true
    · rw [if_pos c3]
      right
      exact ⟨rfl, c3⟩
    · rw [if_neg c3]
      apply convertType_partition lib f _ _ hne
      simpa using c3

theorem ValidateData_get_absent (lib : Lib) (form : Values) (schema : Schema) (k : String)
    (hk : k ∉ schema.Fields.map Field.Name) :
    GoMap.get (ValidateData lib form schema).1 k = none ∧
      GoMap.get (ValidateData lib form schema).2 k = none :=
  foldl_validateField_get_other lib form schema.Fields ([], []) k hk

/-- C17: with pairwise distinct field names, every field name of the schema is a key of
exactly one of the clean data and the error map, and a key that is no field name of the schema
is in neither map. -/
theorem C17_clean_and_errors_partition (lib : Lib) (form : Values) (schema : Schema)
    (hnd : (schema.Fields.map Field.Name).Nodup) :
    (∀ f ∈ schema.Fields,
      ((GoMap.get (ValidateData lib form schema).1 f.Name).isSome = true ∧
          GoMap.get (ValidateData lib form schema).2 f.Name = none) ∨
        (GoMap.get (ValidateData lib form schema).1 f.Name = none ∧
          (GoMap.get (ValidateData lib form schema).2 f.Name).isSome = true)) ∧
    (∀ k, k ∉ schema.Fields.map Field.Name →
      GoMap.get (ValidateData lib form schema).1 k = none ∧
        GoMap.get (ValidateData lib form schema).2 k = none) := by
  refine ⟨?_, fun k hk => ValidateData_get_absent lib form schema k hk⟩
  intro f hf
  obtain ⟨h1, h2⟩ := ValidateData_get_field lib form schema f hnd hf
  rw [h1, h2]
  exact validateField_partition lib form f

/-- Witness of C17: three fields, one left empty, one rejected, one accepted. -/
theorem C17_clean_and_errors_partition_witness :
    ((GoMap.get (ValidateData sampleLib [("doc", ["11111111111"]), ("note", ["a.b"])]
          ⟨"people", [ageField, docField, plainField]⟩).1 "note").isSome = true ∧
        GoMap.get (ValidateData sampleLib [("doc", ["11111111111"]), ("note", ["a.b"])]
          ⟨"people", [ageField, docField, plainField]⟩).2 "note" = none) ∨
      (GoMap.get (ValidateData sampleLib [("doc", ["11111111111"]), ("note", ["a.b"])]
          ⟨"people", [ageField, docField, plainField]⟩).1 "note" = none ∧
        (GoMap.get (ValidateData sampleLib [("doc", ["11111111111"]), ("note", ["a.b"])]
          ⟨"people", [ageField, docField, plainField]⟩).2 "note").isSome = true) :=
  (C17_clean_and_errors_partition sampleLib [("doc", ["11111111111"]), ("note", ["a.b"])]
    ⟨"people", [ageField, docField, plainField]⟩ (by decide)).1 plainField (by decide)

/-- With pairwise distinct field names, what `ValidateData` records for a field (its clean
value, its error message, or nothing) is what `ValidateData` records on the schema of that
field alone with the same form; so the error map holds a message under a key exactly when the
field of that name records this message on its own. No field stops the loop for the others. -/
theorem ValidateData_field_alone (lib : Lib) (form : Values) (schema : Schema)
    (hnd : (schema.Fields.map Field.Name).Nodup) :
    (∀ f ∈ schema.Fields,
      GoMap.get (ValidateData lib form schema).1 f.Name
          = GoMap.get (ValidateData lib form ⟨schema.TableName, [f]⟩).1 f.Name ∧
        GoMap.get (ValidateData lib form schema).2 f.Name
          = GoMap.get (ValidateData lib form ⟨schema.TableName, [f]⟩).2 f.Name) ∧
    (∀ k message, GoMap.get (ValidateData lib form schema).2 k = some message ↔
      ∃ f ∈ schema.Fields, f.Name = k ∧
        GoMap.get (ValidateData lib form ⟨schema.TableName, [f]⟩).2 k = some message) := by
  have hfield : ∀ f ∈ schema.Fields,
      GoMap.get (ValidateData lib form schema).1 f.Name
          = GoMap.get (ValidateData lib form ⟨schema.TableName, [f]⟩).1 f.Name ∧
        GoMap.get (ValidateData lib form schema).2 f.Name
          = GoMap.get (ValidateData lib form ⟨schema.TableName, [f]⟩).2 f.Name :=
    fun f hf => ValidateData_get_field lib form schema f hnd hf
  refine ⟨hfield, ?_⟩
  intro k message
  constructor
  · intro h
    by_cases hk : k ∈ schema.Fields.map Field.Name
    · obtain ⟨f, hf, rfl⟩ := List.mem_map.mp hk
      exact ⟨f, hf, rfl, by rw [← (hfield f hf).2]; exact h⟩
    · rw [(ValidateData_get_absent lib form schema k hk).2] at h
      exact Option.noConfusion h
  · rintro ⟨f, hf, rfl, h⟩
    rw [(hfield f hf).2]; exact h

/-- C14 (the code at the failing input): the fields `age` (required, empty), `doc` (a CPF of
eleven equal digits) and `code` (rules `x` then `y`, value `ab`) all fail and all three are
reported, so the errors are collected across the fields; but `code` is reported with
"needs y", the message of its last failing rule, alone as well as in the full schema, while
its first failing rule is `x` with the message "needs x". -/
theorem C14_collected_but_not_first_error :
    ValidateData sampleLib [("age", [""]), ("doc", ["11111111111"]), ("code", ["ab"])]
        ⟨"people", [ageField, docField, codeField]⟩
      = ([], [("age", "Campo obrigatório"), ("doc", "CPF inválido"), ("code", "needs y")]) ∧
    ValidateData sampleLib [("age", [""]), ("doc", ["11111111111"]), ("code", ["ab"])]
        ⟨"people", [codeField]⟩
      = ([], [("code", "needs y")]) ∧
    codeField.Validation.RegexRules.head? = some ⟨"x", "needs x"⟩ ∧
    sampleLib.MatchString "x" "ab" = false ∧
    GoMap.get (ValidateData sampleLib
        [("age", [""]), ("doc", ["11111111111"]), ("code", ["ab"])]
        ⟨"people", [ageField, docField, codeField]⟩).2 "code" ≠ some "needs x" := by
  decide

/-! ## Dates and primary keys -/

theorem regexLoop_all_match (lib : Lib) (name value : String) (rules : List RegexRule)
    (e : GoMap String) (h : ∀ rule ∈ rules, lib.MatchString rule.Pattern value = true) :
    regexLoop lib name value rules e = e := by
  induction rules generalizing e with
  | nil => rfl
  | cons q rest ih =>
    have hq := h q (List.mem_cons_self _ _)
    simp only [regexLoop, List.foldl_cons, hq, Bool.not_true, Bool.false_eq_true, if_false]
    exact ih e (fun x hx => h x (List.mem_cons_of_mem _ hx))

/-- One iteration on a date field whose non-empty value passes the format validator and every
regex rule is the date conversion alone. -/
theorem validateField_date (lib : Lib) (form : Values) (f : Field)
    (hty : f.Type_ = "date") (hne : Values.Get form f.Name ≠ "")
    (hstd : standardValidation lib f (Values.Get form f.Name) = none)
    (hrx : ∀ rule ∈ f.Validation.RegexRules,
      lib.MatchString rule.Pattern (Values.Get form f.Name) = true) :
    validateField lib form ([], []) f =
      match timeParse "2006-01-02" (Values.Get form f.Name) with
      | some dateVal => ([(f.Name, dateVal)], [])
      | none =>
        match timeParse "02/01/2006" (Values.Get form f.Name) with
        | some dateVal => ([(f.Name, dateVal)], [])
        | none => ([], [(f.Name, "Data inválida. Use AAAA-MM-DD")]) := by
  have hb : (Values.Get form f.Name == "") = false := by simpa using hne
  unfold validateField
  simp only [hb, Bool.and_false, Bool.false_eq_true, if_false, hstd,
    regexLoop_all_match lib _ _ _ _ hrx, GoMap.get, Option.isSome]
  unfold convertType
  simp only [hty]
  simp only [show ("date" : String) ≠ "int" by decide, if_false, if_true]
  cases timeParse "2006-01-02" (Values.Get form f.Name) with
  | some d => simp [GoMap.set]
  | none => cases timeParse "02/01/2006" (Values.Get form f.Name) <;> simp [GoMap.set]

/-- C15 (amended): for a date field whose non-empty value passes the format validator and
every regex rule, `ValidateData` tries the layout YYYY-MM-DD first and DD/MM/YYYY only when
that fails; a value valid in either layout gives that calendar date in the clean data and no
error (31/01/2024 is read by the second layout as 31 January 2024), and a value valid in
neither (2024-13-40) gives no clean value and the error "Data inválida. Use AAAA-MM-DD". -/
theorem C15_date_conversion (lib : Lib) (form : Values) (schema : Schema) (f : Field)
    (hnd : (schema.Fields.map Field.Name).Nodup) (hf : f ∈ schema.Fields)
    (hty : f.Type_ = "date") (hne : Values.Get form f.Name ≠ "")
    (hstd : standardValidation lib f (Values.Get form f.Name) = none)
    (hrx : ∀ rule ∈ f.Validation.RegexRules,
      lib.MatchString rule.Pattern (Values.Get form f.Name) = true) :
    (∀ d, timeParse "2006-01-02" (Values.Get form f.Name) = some d →
      GoMap.get (ValidateData lib form schema).1 f.Name = some d ∧
        GoMap.get (ValidateData lib form schema).2 f.Name = none) ∧
    (∀ d, timeParse "2006-01-02" (Values.Get form f.Name) = none →
      timeParse "02/01/2006" (Values.Get form f.Name) = some d →
      GoMap.get (ValidateData lib form schema).1 f.Name = some d ∧
        GoMap.get (ValidateData lib form schema).2 f.Name = none) ∧
    (timeParse "2006-01-02" (Values.Get form f.Name) = none →
      timeParse "02/01/2006" (Values.Get form f.Name) = none →
      GoMap.get (ValidateData lib form schema).1 f.Name = none ∧
        GoMap.get (ValidateData lib form schema).2 f.Name
          = some "Data inválida. Use AAAA-MM-DD") ∧
    (timeParse "2006-01-02" "31/01/2024" = none ∧
      timeParse "02/01/2006" "31/01/2024" = some (Value.date 2024 1 31)) ∧
    (timeParse "2006-01-02" "2024-13-40" = none ∧
      timeParse "02/01/2006" "2024-13-40" = none) := by
  obtain ⟨h1, h2⟩ := ValidateData_get_field lib form schema f hnd hf
  rw [h1, h2, validateField_date lib form f hty hne hstd hrx]
  refine ⟨?_, ?_, ?_, by decide, by decide⟩
  · intro d hd
    simp [hd, GoMap.get]
  · intro d hd1 hd2
    simp [hd1, hd2, GoMap.get]
  · intro hd1 hd2
    simp [hd1, hd2, GoMap.get]

/-- Witness of C15 (amended): 31/01/2024 in a required date field. -/
theorem C15_date_conversion_witness :
    GoMap.get (ValidateData sampleLib [("birth", ["31/01/2024"])] ⟨"people", [birthField]⟩).1
        "birth" = some (Value.date 2024 1 31) ∧
      GoMap.get (ValidateData sampleLib [("birth", ["31/01/2024"])] ⟨"people", [birthField]⟩).2
        "birth" = none :=
  (C15_date_conversion sampleLib [("birth", ["31/01/2024"])] ⟨"people", [birthField]⟩ birthField
    (by decide) (by decide) (by decide) (by decide) (by decide) (by decide)).2.1
    (Value.date 2024 1 31) (by decide) (by decide)

/-- Counterexample to C15 as stated: for 2024-13-40 the recorded message is not
"Data inválida"; it is the longer "Data inválida. Use AAAA-MM-DD". -/
theorem C15_date_conversion_counterexample :
    ¬ (GoMap.get (ValidateData sampleLib [("birth", ["2024-13-40"])]
        ⟨"people", [birthField]⟩).2 "birth" = some "Data inválida") := by
  decide

/-- C13 (the code at the failing input): an `int` primary key whose value is absent or empty
is not skipped. An optional one gets the explicit null in the clean data, a required one the
error "Campo obrigatório"; the skip written in the `int` case is never reached, because the
two tests on the empty value run first. -/
theorem C13_empty_primary_key_not_skipped :
    ValidateData sampleLib [] ⟨"people", [idField]⟩ = ([("id", Value.null)], []) ∧
      ValidateData sampleLib [("id", [""])] ⟨"people", [idField]⟩
        = ([("id", Value.null)], []) ∧
      ValidateData sampleLib [] ⟨"people", [idFieldRequired]⟩
        = ([], [("id", "Campo obrigatório")]) := by
  decide

/-! ## Formatting records for display -/

theorem GoMap.set_keys {β : Type} (m : GoMap β) (k : String) (v : β)
    (h : (GoMap.get m k).isSome = true) :
    (GoMap.set m k v).map Prod.fst = m.map Prod.fst := by
  induction m with
  | nil => simp [GoMap.get] at h
  | cons p t ih =>
    obtain ⟨k', v'⟩ := p
    by_cases hk : k' = k
    · simp [GoMap.set, hk]
    · simp only [GoMap.get, hk, if_false] at h
      simp [GoMap.set, hk, ih h]

/-- One iteration of the loop of `FormatSingleDataBySchema`. -/
theorem FormatSingleDataBySchema_cons (lib : Lib) (t : String) (g : Field) (rest : List Field)
    (data : Record) :
    FormatSingleDataBySchema lib ⟨t, g :: rest⟩ data =
      FormatSingleDataBySchema lib ⟨t, rest⟩
        (if g.Mask ≠ "" then
          match GoMap.get data g.Name with
          | some (Value.str rawValue) =>
            GoMap.set data g.Name (Value.str (FormatValueByMask lib g.Mask rawValue))
          | _ => data
        else data) := rfl

theorem formatStep_keys (lib : Lib) (g : Field) (data : Record) :
    (if g.Mask ≠ "" then
        match GoMap.get data g.Name with
        | some (Value.str rawValue) =>
          GoMap.set data g.Name (Value.str (FormatValueByMask lib g.Mask rawValue))
        | _ => data
      else data).map Prod.fst = data.map Prod.fst := by
  split_ifs with hm
  · split
    · next s hs => exact GoMap.set_keys _ _ _ (by rw [hs]; rfl)
    · rfl
  · rfl

theorem formatStep_get (lib : Lib) (g : Field) (data : Record) (k : String)
    (h : g.Name = k → g.Mask ≠ "" → ∀ s, GoMap.get data k ≠ some (Value.str s)) :
    GoMap.get (if g.Mask ≠ "" then
        match GoMap.get data g.Name with
        | some (Value.str rawValue) =>
          GoMap.set data g.Name (Value.str (FormatValueByMask lib g.Mask rawValue))
        | _ => data
      else data) k = GoMap.get data k := by
  split_ifs with hm
  · split
    · next s hs =>
      rw [GoMap.get_set]
      by_cases hk : g.Name = k
      · exact absurd (hk ▸ hs) (h hk hm s)
      · rw [if_neg hk]
    · rfl
  · rfl

theorem FormatSingleDataBySchema_keys (lib : Lib) (t : String) (fields : List Field)
    (data : Record) :
    (FormatSingleDataBySchema lib ⟨t, fields⟩ data).map Prod.fst = data.map Prod.fst := by
  induction fields generalizing data with
  | nil => rfl
  | cons g rest ih => rw [FormatSingleDataBySchema_cons, ih, formatStep_keys]

theorem FormatSingleDataBySchema_get_unchanged (lib : Lib) (t : String) (fields : List Field)
    (data : Record) (k : String)
    (h : ∀ g ∈ fields, g.Name = k → g.Mask ≠ "" → ∀ s, GoMap.get data k ≠ some (Value.str s)) :
    GoMap.get (FormatSingleDataBySchema lib ⟨t, fields⟩ data) k = GoMap.get data k := by
  induction fields generalizing data with
  | nil => rfl
  | cons g rest ih =>
    have hstep := formatStep_get lib g data k (h g (List.mem_cons_self _ _))
    rw [FormatSingleDataBySchema_cons, ih, hstep]
    intro g' hg' hn hm s
    rw [hstep]
    exact h g' (List.mem_cons_of_mem _ hg') hn hm s

theorem FormatSingleDataBySchema_get_formatted (lib : Lib) (t : String) (fields : List Field)
    (data : Record) (f : Field) (s : String)
    (hnd : (fields.map Field.Name).Nodup) (hf : f ∈ fields) (hm : f.Mask ≠ "")
    (hs : GoMap.get data f.Name = some (Value.str s)) :
    GoMap.get (FormatSingleDataBySchema lib ⟨t, fields⟩ data) f.Name
      = some (Value.str (FormatValueByMask lib f.Mask s)) := by
  induction fields generalizing data with
  | nil => simp at hf
  | cons g rest ih =>
    simp only [List.map_cons, List.nodup_cons] at hnd
    rw [FormatSingleDataBySchema_cons]
    rcases List.mem_cons.mp hf with e | hrest
    · subst e
      rw [FormatSingleDataBySchema_get_unchanged]
      · simp only [hm, ne_eq, not_false_eq_true, if_true, hs]
        rw [GoMap.get_set, if_pos rfl]
      · intro g' hg' hn
        exact absurd (List.mem_map.mpr ⟨g', hg', hn⟩) hnd.1
    · have hne : g.Name ≠ f.Name := by
        intro e
        exact hnd.1 (e ▸ List.mem_map.mpr ⟨f, hrest, rfl⟩)
      apply ih _ hnd.2 hrest
      rw [formatStep_get lib g data f.Name (fun e => absurd e hne), hs]

/-- C16: with pairwise distinct field names, `FormatSingleDataBySchema` keeps the keys of the
record, replaces a string `s` under the name of a field with a non-empty mask by
`FormatValueByMask(mask, s)` and leaves every other entry as it is: null values, values of
fields with an empty mask, keys that name no field; `FormatDataBySchema` does the same to
each record of a list. -/
theorem C16_format_record_by_schema (lib : Lib) (schema : Schema) (data : Record)
    (hnd : (schema.Fields.map Field.Name).Nodup) :
    (FormatSingleDataBySchema lib schema data).map Prod.fst = data.map Prod.fst ∧
    (∀ f ∈ schema.Fields, f.Mask ≠ "" → ∀ s, GoMap.get data f.Name = some (Value.str s) →
      GoMap.get (FormatSingleDataBySchema lib schema data) f.Name
        = some (Value.str (FormatValueByMask lib f.Mask s))) ∧
    (∀ k, (¬ ∃ f ∈ schema.Fields, f.Name = k ∧ f.Mask ≠ "" ∧
        ∃ s, GoMap.get data k = some (Value.str s)) →
      GoMap.get (FormatSingleDataBySchema lib schema data) k = GoMap.get data k) ∧
    (∀ k, GoMap.get data k = some Value.null →
      GoMap.get (FormatSingleDataBySchema lib schema data) k = some Value.null) ∧
    (∀ f ∈ schema.Fields, f.Mask = "" →
      GoMap.get (FormatSingleDataBySchema lib schema data) f.Name = GoMap.get data f.Name) ∧
    (∀ k, k ∉ schema.Fields.map Field.Name →
      GoMap.get (FormatSingleDataBySchema lib schema data) k = GoMap.get data k) ∧
    (∀ records : List Record, FormatDataBySchema lib schema records
      = records.map (FormatSingleDataBySchema lib schema)) := by
  obtain ⟨t, fields⟩ := schema
  have hun : ∀ k, (¬ ∃ f ∈ fields, f.Name = k ∧ f.Mask ≠ "" ∧
        ∃ s, GoMap.get data k = some (Value.str s)) →
      GoMap.get (FormatSingleDataBySchema lib ⟨t, fields⟩ data) k = GoMap.get data k := by
    intro k hk
    apply FormatSingleDataBySchema_get_unchanged
    intro g hg hn hm s hs
    exact hk ⟨g, hg, hn, hm, s, hs⟩
  refine ⟨FormatSingleDataBySchema_keys lib t fields data, ?_, hun, ?_, ?_, ?_, fun _ => rfl⟩
  · intro f hf hm s hs
    exact FormatSingleDataBySchema_get_formatted lib t fields data f s hnd hf hm hs
  · intro k hk
    rw [hun k, hk]
    rintro ⟨f, _, _, _, s, hs⟩
    rw [hk] at hs
    exact Value.noConfusion (Option.some.inj hs)
  · intro f hf hm
    apply hun
    rintro ⟨g, hg, hn, hgm, _⟩
    have : g = f := by
      by_contra hne
      have := List.inj_on_of_nodup_map hnd hg hf hn
      exact hne this
    exact hgm (this ▸ hm)
  · intro k hk
    apply hun
    rintro ⟨g, hg, hn, _⟩
    exact hk (List.mem_map.mpr ⟨g, hg, hn⟩)

/-- Witness of C16: a record with a masked string, an unmasked string and a null. -/
theorem C16_format_record_by_schema_witness :
    FormatSingleDataBySchema sampleLib ⟨"people", [maskedField, plainField]⟩
        [("cpf", Value.str "12345678901"), ("note", Value.str "a.b"), ("extra", Value.null)]
      = [("cpf", Value.str "123.456.789-01"), ("note", Value.str "a.b"),
          ("extra", Value.null)] ∧
    GoMap.get (FormatSingleDataBySchema sampleLib ⟨"people", [maskedField, plainField]⟩
        [("cpf", Value.str "12345678901"), ("note", Value.str "a.b"), ("extra", Value.null)])
        maskedField.Name
      = some (Value.str (FormatValueByMask sampleLib maskedField.Mask "12345678901")) :=
  ⟨by decide,
    (C16_format_record_by_schema sampleLib ⟨"people", [maskedField, plainField]⟩
      [("cpf", Value.str "12345678901"), ("note", Value.str "a.b"), ("extra", Value.null)]
      (by decide)).2.1 maskedField (by decide) (by decide) "12345678901" (by decide)⟩

end CrudGenerator
